import Mathlib

/-!
Verification development for the monkey-lang repository (Rust implementation
of the Monkey programming language: lexer, Pratt parser, tree-walking
evaluator with an environment arena, bytecode compiler and stack virtual
machine).

The Rust sources are shallowly embedded: machine integers become `Nat`/`Int`
with explicit wrap-around where the source can overflow, `panic!`-style
failures (slice indexing out of bounds, `unwrap` on `Err`, `expect` on a
dangling weak reference) become an explicit `crash` outcome, and fallible
functions return `Except`.  Recursive interpreter loops are given explicit
fuel; running out of fuel is a distinguished outcome, never confused with a
result of the program.
-/

namespace Monkey

/-- Wrap-around of an unbounded integer into signed 64-bit two's complement,
mirroring release-mode `i64` arithmetic in Rust. -/
def wrap64 (n : Int) : Int :=
  ((n + 2 ^ 63) % 2 ^ 64) - 2 ^ 63

/-- Largest `i64` value, used by integer-literal parsing. -/
def i64Max : Nat := 2 ^ 63 - 1

/-! ## UTF-8 encoding and decoding

`Lexer` slices the input byte array and converts slices back to `&str` with
`std::str::from_utf8(...).unwrap()`; the `unwrap` panics when the slice is
not valid UTF-8.  We model bytes as `Nat` (always < 256) and implement the
standard UTF-8 encoder and validating decoder. -/

/-- UTF-8 encoding of a single scalar value (assumed to be a valid `Char`). -/
def utf8EncodeChar (c : Nat) : List Nat :=
  if c < 0x80 then [c]
  else if c < 0x800 then
    [0xC0 + c / 64, 0x80 + c % 64]
  else if c < 0x10000 then
    [0xE0 + c / 4096, 0x80 + c / 64 % 64, 0x80 + c % 64]
  else
    [0xF0 + c / 262144, 0x80 + c / 4096 % 64, 0x80 + c / 64 % 64, 0x80 + c % 64]

/-- UTF-8 encoding of a character list. -/
def utf8Encode : List Char → List Nat
  | [] => []
  | c :: cs => utf8EncodeChar c.toNat ++ utf8Encode cs

/-- The bytes of a Lean string, as Rust's `str::as_bytes` sees them. -/
def strBytes (s : String) : List Nat :=
  utf8Encode s.data

/-- Is `b` a UTF-8 continuation byte (`10xxxxxx`)? -/
def isCont (b : Nat) : Bool :=
  0x80 ≤ b && b ≤ 0xBF

/-- Whether a scalar value is a valid Unicode scalar (not a surrogate, in
range), the side condition `Char.ofNat` needs to be lossless. -/
def validScalar (c : Nat) : Bool :=
  (c < 0xD800 || (0xE000 ≤ c && c ≤ 0x10FFFF)) && c ≤ 0x10FFFF

/-- Decode one UTF-8 sequence from the front of a byte list, rejecting
overlong encodings, surrogates and out-of-range values exactly as Rust's
`std::str::from_utf8` does.  Returns the scalar value and the rest. -/
def utf8DecodeOne : List Nat → Option (Nat × List Nat)
  | [] => none
  | b :: rest =>
    if b < 0x80 then some (b, rest)
    else if b < 0xC2 then none
    else if b < 0xE0 then
      match rest with
      | b1 :: rest1 =>
        if isCont b1 then some ((b - 0xC0) * 64 + (b1 - 0x80), rest1) else none
      | _ => none
    else if b < 0xF0 then
      match rest with
      | b1 :: b2 :: rest2 =>
        if (if b = 0xE0 then 0xA0 ≤ b1 && b1 ≤ 0xBF
            else if b = 0xED then 0x80 ≤ b1 && b1 ≤ 0x9F
            else isCont b1) && isCont b2 then
          some ((b - 0xE0) * 4096 + (b1 - 0x80) * 64 + (b2 - 0x80), rest2)
        else none
      | _ => none
    else if b < 0xF5 then
      match rest with
      | b1 :: b2 :: b3 :: rest3 =>
        if (if b = 0xF0 then 0x90 ≤ b1 && b1 ≤ 0xBF
            else if b = 0xF4 then 0x80 ≤ b1 && b1 ≤ 0x8F
            else isCont b1) && isCont b2 && isCont b3 then
          some ((b - 0xF0) * 262144 + (b1 - 0x80) * 4096 + (b2 - 0x80) * 64
                  + (b3 - 0x80), rest3)
        else none
      | _ => none
    else none

/-- Decode a whole byte list to characters; `none` models the `Err` branch of
`std::str::from_utf8` (and hence a panic at every `unwrap` call site). -/
def utf8DecodeChars : Nat → List Nat → Option (List Char)
  | _, [] => some []
  | 0, _ :: _ => none
  | fuel + 1, bs@(_ :: _) =>
    match utf8DecodeOne bs with
    | none => none
    | some (c, rest) =>
      if validScalar c then
        match utf8DecodeChars fuel rest with
        | none => none
        | some cs => some (Char.ofNat c :: cs)
      else none

/-- `std::str::from_utf8` as a partial conversion from bytes to a string. -/
def utf8Decode (bs : List Nat) : Option String :=
  (utf8DecodeChars (bs.length + 1) bs).map List.asString

/-! ## Tokens (src/token.rs) -/

/-- Alias for Lean strings, needed because `Token` has a constructor that
shadows the name `String` inside its own declaration. -/
abbrev Str := String

/-- The token type of `src/token.rs`.  `Illegal` carries the offending
byte; identifier, integer and string tokens carry decoded text. -/
inductive Token where
  | Illegal (b : Nat)
  | Ident (s : Str)
  | Int (s : Str)
  | String (s : Str)
  | Assign
  | Plus
  | Minus
  | Bang
  | Asterisk
  | Slash
  | Lt
  | Gt
  | Eq
  | NotEq
  | Comma
  | Semicolon
  | Colon
  | Lparen
  | Rparen
  | Lsquigly
  | Rsquigly
  | LBracket
  | RBracket
  | Function
  | Let
  | True
  | False
  | If
  | Else
  | Return
  deriving DecidableEq, Repr

/-- `Token::lookup_ident`. -/
def Token.lookupIdent (ident : Str) : Token :=
  if ident = ("fn") then .Function
  else if ident = ("let") then .Let
  else if ident = ("true") then .True
  else if ident = ("false") then .False
  else if ident = ("if") then .If
  else if ident = ("else") then .Else
  else if ident = ("return") then .Return
  else .Ident ident

/-- `Token::is_infix`. -/
def Token.isInfix : Token → Bool
  | .Plus | .Minus | .Slash | .Asterisk | .Eq | .NotEq | .Lt | .Gt
  | .Lparen | .LBracket => true
  | _ => false

/-! ## Lexer (src/lexer.rs) -/

/-- `is_letter` from `src/lexer.rs`: `(ch as char).is_alphabetic() || ch == b'_'`.
A `u8` cast to `char` is interpreted as the Unicode code point U+0000..U+00FF,
so the alphabetic test is Rust's `char::is_alphabetic` restricted to
Latin-1: ASCII letters plus U+00AA, U+00B5, U+00BA, U+00C0–U+00D6,
U+00D8–U+00F6 and U+00F8–U+00FF. -/
def isLetter (ch : Nat) : Bool :=
  (0x41 ≤ ch && ch ≤ 0x5A) || (0x61 ≤ ch && ch ≤ 0x7A) ||
  ch == 0xAA || ch == 0xB5 || ch == 0xBA ||
  (0xC0 ≤ ch && ch ≤ 0xD6) || (0xD8 ≤ ch && ch ≤ 0xF6) ||
  (0xF8 ≤ ch && ch ≤ 0xFF) ||
  ch == 0x5F

/-- `u8::is_ascii_digit`. -/
def isAsciiDigit (ch : Nat) : Bool :=
  0x30 ≤ ch && ch ≤ 0x39

/-- `u8::is_ascii_whitespace` (space, tab, newline, form feed, carriage
return). -/
def isAsciiWhitespace (ch : Nat) : Bool :=
  ch == 0x20 || ch == 0x09 || ch == 0x0A || ch == 0x0C || ch == 0x0D

/-- The state of `Lexer` from `src/lexer.rs`: input bytes, the index of the
current byte, the index of the next byte, and the current byte (`0` at
end of input). -/
structure Lexer where
  input : List Nat
  position : Nat
  readPosition : Nat
  ch : Nat
  deriving Repr

/-- `Lexer::read_char`. -/
def Lexer.readChar (l : Lexer) : Lexer :=
  let c := if l.readPosition ≥ l.input.length then 0 else l.input.getD l.readPosition 0
  { l with ch := c, position := l.readPosition, readPosition := l.readPosition + 1 }

/-- `Lexer::new`. -/
def Lexer.new (input : List Nat) : Lexer :=
  Lexer.readChar { input := input, position := 0, readPosition := 0, ch := 0 }

/-- `Lexer::peek_char`. -/
def Lexer.peekChar (l : Lexer) : Nat :=
  if l.readPosition ≥ l.input.length then 0 else l.input.getD l.readPosition 0

/-- Advance with `read_char` while the predicate holds of the current byte
(the shape of the `while` loops in `read_identifier`, `read_number` and
`skip_whitespace`).  The fuel is always instantiated so that it exceeds the
remaining input length, which makes it immaterial: once `readPosition` passes
the end, `ch` is `0` and every predicate used below is false at `0`. -/
def Lexer.advanceWhile : Nat → (Nat → Bool) → Lexer → Lexer
  | 0, _, l => l
  | fuel + 1, p, l => if p l.ch then Lexer.advanceWhile fuel p l.readChar else l

/-- The byte slice `input[start..stop]`. -/
def Lexer.slice (l : Lexer) (start stop : Nat) : List Nat :=
  (l.input.drop start).take (stop - start)

/-- Outcome of a lexer step that may panic: `read_identifier` calls
`std::str::from_utf8(...).unwrap()`, which panics when the consumed slice
is not valid UTF-8. -/
inductive LexStep where
  | ok (t : Option Token) (l : Lexer)
  | crash
  deriving Repr

/-- `Lexer::read_identifier`, returning the decoded slice (or a crash when
`from_utf8` fails). -/
def Lexer.readIdentifier (l : Lexer) : Option (String × Lexer) :=
  let start := l.position
  let l2 := Lexer.advanceWhile (l.input.length + 1) isLetter l
  (utf8Decode (l2.slice start l2.position)).map (fun s => (s, l2))

/-- `Lexer::read_number`. -/
def Lexer.readNumber (l : Lexer) : Option (String × Lexer) :=
  let start := l.position
  let l2 := Lexer.advanceWhile (l.input.length + 1) isAsciiDigit l
  (utf8Decode (l2.slice start l2.position)).map (fun s => (s, l2))

/-- `Lexer::read_string`: advance past the opening quote, then until a
closing quote or end of input; the slice excludes both quotes. -/
def Lexer.readString (l : Lexer) : Option (String × Lexer) :=
  let start := l.position + 1
  let l2 := Lexer.advanceWhile (l.input.length + 1)
    (fun c => !(c == 0x22 || c == 0)) l.readChar
  (utf8Decode (l2.slice start l2.position)).map (fun s => (s, l2))

/-- `<Lexer as Iterator>::next`.  Returns `ok none` at end of input,
`ok (some t)` for a token, and `crash` when an `unwrap` in the lexer
panics. -/
def Lexer.next (l0 : Lexer) : LexStep :=
  let l := Lexer.advanceWhile (l0.input.length + 1) isAsciiWhitespace l0
  if l.ch == 0x3D then  -- b'='
    if l.peekChar == 0x3D then .ok (some .Eq) l.readChar.readChar
    else .ok (some .Assign) l.readChar
  else if l.ch == 0x3B then .ok (some .Semicolon) l.readChar
  else if l.ch == 0x3A then .ok (some .Colon) l.readChar
  else if l.ch == 0x28 then .ok (some .Lparen) l.readChar
  else if l.ch == 0x29 then .ok (some .Rparen) l.readChar
  else if l.ch == 0x2C then .ok (some .Comma) l.readChar
  else if l.ch == 0x2B then .ok (some .Plus) l.readChar
  else if l.ch == 0x2D then .ok (some .Minus) l.readChar
  else if l.ch == 0x7B then .ok (some .Lsquigly) l.readChar
  else if l.ch == 0x7D then .ok (some .Rsquigly) l.readChar
  else if l.ch == 0x5B then .ok (some .LBracket) l.readChar
  else if l.ch == 0x5D then .ok (some .RBracket) l.readChar
  else if l.ch == 0x21 then  -- b'!'
    if l.peekChar == 0x3D then .ok (some .NotEq) l.readChar.readChar
    else .ok (some .Bang) l.readChar
  else if l.ch == 0x22 then  -- b'"'
    match l.readString with
    | some (s, l2) => .ok (some (.String s)) l2.readChar
    | none => .crash
  else if l.ch == 0x2F then .ok (some .Slash) l.readChar
  else if l.ch == 0x2A then .ok (some .Asterisk) l.readChar
  else if l.ch == 0x3C then .ok (some .Lt) l.readChar
  else if l.ch == 0x3E then .ok (some .Gt) l.readChar
  else if l.ch == 0 then .ok none l
  else if isLetter l.ch then
    -- Early exit: `read_char` already ran inside `read_identifier`.
    match l.readIdentifier with
    | some (s, l2) => .ok (some (Token.lookupIdent s)) l2
    | none => .crash
  else if isAsciiDigit l.ch then
    match l.readNumber with
    | some (s, l2) => .ok (some (.Int s)) l2
    | none => .crash
  else .ok (some (.Illegal l.ch)) l.readChar

/-- Outcome of draining the lexer. -/
inductive LexResult where
  | ok (ts : List Token)
  | crash
  | outOfFuel
  deriving DecidableEq, Repr

/-- Drain the lexer into a token list.  The fuel only bounds the number of
`next` calls; `Lexer.tokenize` below instantiates it with more than the
input length, which always suffices because every call to `next` that
produces a token advances the read position. -/
def Lexer.drain : Nat → Lexer → LexResult
  | 0, _ => .outOfFuel
  | fuel + 1, l =>
    match l.next with
    | .crash => .crash
    | .ok none _ => .ok []
    | .ok (some t) l2 =>
      match Lexer.drain fuel l2 with
      | .ok ts => .ok (t :: ts)
      | r => r

/-- The full token stream of an input, as the parser consumes it. -/
def tokenize (input : List Nat) : LexResult :=
  Lexer.drain (input.length + 2) (Lexer.new input)

/-! ## AST (src/ast/mod.rs, src/ast/operator.rs) -/

/-- `PrefixOperatorKind`. -/
inductive PrefixOperatorKind where
  | Not
  | Negative
  deriving DecidableEq, Repr

/-- `InfixOperatorKind`. -/
inductive InfixOperatorKind where
  | Add
  | Subtract
  | Multiply
  | Divide
  | Equal
  | NotEqual
  | GreaterThan
  | LessThan
  deriving DecidableEq, Repr

mutual

/-- `ast::Expression`.  The `hashLiteral` constructor is required by
`Evaluator::evaluate_hash_literal` and `Compiler::compile_expression`;
its declaration is absent from the `src/ast` snapshot, so that constructor
is modelled from the spec: `HashLiteral([(key_expr, value_expr)])`, a list
of key/value expression pairs in source order. -/
inductive Expression where
  | identifier (name : Str)
  | integerLiteral (value : Int)
  | booleanLiteral (value : Bool)
  | stringLiteral (value : Str)
  | arrayLiteral (elements : List Expression)
  | hashLiteral (pairs : List HashPair)
  | prefixOperator (operator : PrefixOperatorKind) (right : Expression)
  | infixOperator (operator : InfixOperatorKind) (left right : Expression)
  | ifExpr (condition : Expression) (consequence alternative : BlockStatement)
  | functionLiteral (parameters : List Str) (body : BlockStatement)
  | functionCall (function : Expression) (arguments : List Expression)
  | indexExpr (left index : Expression)

/-- A single `key: value` entry of a hash literal (modelled from the spec's
`HashLiteral([(key_expr, value_expr)])`). -/
inductive HashPair where
  | mk (key value : Expression)

/-- `ast::Statement`. -/
inductive Statement where
  | letStmt (name : Str) (value : Expression)
  | returnStmt (value : Expression)
  | exprStmt (value : Expression)

/-- `ast::BlockStatement`. -/
inductive BlockStatement where
  | mk (statements : List Statement)

end

/-- The key of a hash-literal entry. -/
def HashPair.key : HashPair → Expression
  | .mk k _ => k

/-- The value of a hash-literal entry. -/
def HashPair.value : HashPair → Expression
  | .mk _ v => v

/-- The statement list of a block. -/
def BlockStatement.statements : BlockStatement → List Statement
  | .mk s => s

/-- `ast::Program`. -/
structure Program where
  statements : List Statement

/-- `PrefixOperatorKind::debug_str`. -/
def PrefixOperatorKind.debugStr : PrefixOperatorKind → Str
  | .Not => "!"
  | .Negative => "-"

/-- `InfixOperatorKind::debug_str`. -/
def InfixOperatorKind.debugStr : InfixOperatorKind → Str
  | .Add => "+"
  | .Subtract => "-"
  | .Multiply => "*"
  | .Divide => "/"
  | .Equal => "=="
  | .NotEqual => "!="
  | .GreaterThan => ">"
  | .LessThan => "<"

mutual

/-- `Expression::debug_str` (fueled; the fuel bounds the tree depth). -/
def Expression.debugStr : Nat → Expression → Str
  | 0, _ => ""
  | fuel + 1, e =>
    match e with
    | .identifier name => name
    | .integerLiteral v => toString v
    | .booleanLiteral v => toString v
    | .stringLiteral v => v
    | .arrayLiteral elems =>
      "[" ++ String.intercalate (", ") (exprListDebugStr fuel elems) ++ "]"
    | .hashLiteral _ => "\x7b\x7d"
    | .prefixOperator op right =>
      "(" ++ op.debugStr ++ Expression.debugStr fuel right ++ ")"
    | .infixOperator op left right =>
      "(" ++ Expression.debugStr fuel left ++ " " ++ op.debugStr ++ " " ++
        Expression.debugStr fuel right ++ ")"
    | .ifExpr c cons alt =>
      "if (" ++ Expression.debugStr fuel c ++ ") \x7b" ++
        BlockStatement.debugStr fuel cons ++ "\x7d else \x7b" ++
        BlockStatement.debugStr fuel alt ++ "\x7d"
    | .functionLiteral params body =>
      "fn(" ++ String.intercalate (", ") params ++ ") \x7b" ++
        BlockStatement.debugStr fuel body ++ "\x7d"
    | .functionCall f args =>
      Expression.debugStr fuel f ++ "(" ++
        String.intercalate (", ") (exprListDebugStr fuel args) ++ ")"
    | .indexExpr left index =>
      "(" ++ Expression.debugStr fuel left ++ "[" ++
        Expression.debugStr fuel index ++ "])"

/-- Debug strings of a list of expressions. -/
def exprListDebugStr : Nat → List Expression → List Str
  | 0, _ => []
  | _, [] => []
  | fuel + 1, e :: es => Expression.debugStr fuel e :: exprListDebugStr fuel es

/-- `Statement::debug_str`. -/
def Statement.debugStr : Nat → Statement → Str
  | 0, _ => ""
  | fuel + 1, s =>
    match s with
    | .letStmt name value => "let " ++ name ++ " = " ++ Expression.debugStr fuel value
    | .returnStmt value => "return " ++ Expression.debugStr fuel value
    | .exprStmt value => Expression.debugStr fuel value

/-- `BlockStatement::debug_str`. -/
def BlockStatement.debugStr : Nat → BlockStatement → Str
  | 0, _ => ""
  | fuel + 1, .mk stmts => stmtListDebugStr fuel stmts

/-- Concatenated debug strings of statements, each followed by a `;`. -/
def stmtListDebugStr : Nat → List Statement → Str
  | 0, _ => ""
  | _, [] => ""
  | fuel + 1, s :: rest => Statement.debugStr fuel s ++ ";" ++ stmtListDebugStr fuel rest

end

/-- `Program::debug_str`. -/
def Program.debugStr (fuel : Nat) (p : Program) : Str :=
  stmtListDebugStr fuel p.statements

/-! ## Parser (src/parse/mod.rs, src/parse/precedence.rs, src/parse/error.rs) -/

/-- `parse::Error` from `src/parse/error.rs`.  `NotANumber` carries the
digit text whose `i64` parse overflowed. -/
inductive ParseError where
  | UnexpectedToken (t : Token)
  | UnexpectedEof
  | NotAStatement (t : Token)
  | NotAnExpression (t : Option Token)
  | NotANumber (digits : Str)
  | ExpectedLeftExpression
  deriving DecidableEq, Repr

/-- `Error::unexpected_token`. -/
def ParseError.unexpectedToken : Option Token → ParseError
  | some t => .UnexpectedToken t
  | none => .UnexpectedEof

/-- `parse::precedence::Precedence`. -/
inductive Precedence where
  | Lowest
  | Equals
  | LessGreater
  | Sum
  | Product
  | Prefix
  | Call
  | Index
  deriving DecidableEq, Repr

/-- The rank that `derive(PartialOrd)` gives each precedence level. -/
def Precedence.value : Precedence → Nat
  | .Lowest => 0
  | .Equals => 1
  | .LessGreater => 2
  | .Sum => 3
  | .Product => 4
  | .Prefix => 5
  | .Call => 6
  | .Index => 7

/-- `From<&Token> for Precedence`. -/
def Precedence.fromToken : Token → Precedence
  | .Eq | .NotEq => .Equals
  | .Lt | .Gt => .LessGreater
  | .Plus | .Minus => .Sum
  | .Slash | .Asterisk => .Product
  | .Lparen => .Call
  | .LBracket => .Index
  | _ => .Lowest

/-- `From<&Option<Token>> for Precedence`. -/
def Precedence.fromOptToken : Option Token → Precedence
  | some t => Precedence.fromToken t
  | none => .Lowest

/-- `TryFrom<&Option<Token>> for PrefixOperatorKind`. -/
def PrefixOperatorKind.tryFrom : Option Token → Except ParseError PrefixOperatorKind
  | some .Bang => .ok .Not
  | some .Minus => .ok .Negative
  | t => .error (ParseError.unexpectedToken t)

/-- `TryFrom<&Option<Token>> for InfixOperatorKind`. -/
def InfixOperatorKind.tryFrom : Option Token → Except ParseError InfixOperatorKind
  | some .Plus => .ok .Add
  | some .Minus => .ok .Subtract
  | some .Asterisk => .ok .Multiply
  | some .Slash => .ok .Divide
  | some .Eq => .ok .Equal
  | some .NotEq => .ok .NotEqual
  | some .Gt => .ok .GreaterThan
  | some .Lt => .ok .LessThan
  | t => .error (ParseError.unexpectedToken t)

/-- `i64::from_str` on a digit string (the argument of `Token::Int` is all
ASCII digits): overflow beyond `i64::MAX` is an error, mirrored from
`value.parse()?` in `parse_prefix`. -/
def parseI64 (s : Str) : Except ParseError Int :=
  let n := s.data.foldl (fun acc c => acc * 10 + (c.toNat - 0x30)) 0
  if n ≤ i64Max then .ok (Int.ofNat n) else .error (.NotANumber s)

/-- The `Parser` state: the tokens the lexer has not yet produced, plus the
one-token lookahead window `current_token` / `peek_token`. -/
structure Parser where
  tokens : List Token
  currentToken : Option Token
  peekToken : Option Token
  deriving Repr

/-- `Parser::new`. -/
def Parser.new (ts : List Token) : Parser :=
  { tokens := ts.drop 2, currentToken := ts.head?, peekToken := (ts.drop 1).head? }

/-- `Parser::step`: pull the next token from the lexer, making the old peek
token current. -/
def Parser.step (p : Parser) : Parser :=
  { tokens := p.tokens.drop 1, currentToken := p.peekToken, peekToken := p.tokens.head? }

/-- `Parser::peek_precedence` (`None` when there is no peek token). -/
def Parser.peekPrecedence (p : Parser) : Option Precedence :=
  p.peekToken.map Precedence.fromToken

/-- Result alias for the fueled parser: value plus the parser state. -/
abbrev PRes (α : Type) := Except ParseError (Option (α × Parser))

mutual

/-- `Parser::parse_program`. -/
def parseProgram : Nat → Parser → List Statement → PRes (List Statement)
  | 0, _, _ => .ok none
  | fuel + 1, p, acc =>
    match p.currentToken with
    | none => .ok (some (acc.reverse, p))
    | some _ =>
      match parseStatement fuel p with
      | .error e => .error e
      | .ok none => .ok none
      | .ok (some (stmt, p2)) => parseProgram fuel p2.step (stmt :: acc)

/-- `Parser::parse_statement`. -/
def parseStatement : Nat → Parser → PRes Statement
  | 0, _ => .ok none
  | fuel + 1, p =>
    match p.currentToken with
    | some .Let => parseLetStatement fuel p
    | some .Return => parseReturnStatement fuel p
    | _ =>
      match parseExpression fuel p .Lowest with
      | .error e => .error e
      | .ok none => .ok none
      | .ok (some (expr, p2)) =>
        let p3 := if p2.peekToken = some .Semicolon then p2.step else p2
        .ok (some (.exprStmt expr, p3))

/-- `Parser::parse_let_statement`. -/
def parseLetStatement : Nat → Parser → PRes Statement
  | 0, _ => .ok none
  | fuel + 1, p0 =>
    let p := p0.step  -- consume `let`
    match p.currentToken with
    | some (.Ident name) =>
      let p := { p with currentToken := none }  -- `take()`
      if p.peekToken ≠ some .Assign then
        .error (ParseError.unexpectedToken p.peekToken)
      else
        match parseExpression fuel p.step.step .Lowest with
        | .error e => .error e
        | .ok none => .ok none
        | .ok (some (value, p2)) =>
          let p3 := if p2.peekToken = some .Semicolon then p2.step else p2
          .ok (some (.letStmt name value, p3))
    | t => .error (ParseError.unexpectedToken t)

/-- `Parser::parse_return_statement`. -/
def parseReturnStatement : Nat → Parser → PRes Statement
  | 0, _ => .ok none
  | fuel + 1, p0 =>
    match parseExpression fuel p0.step .Lowest with
    | .error e => .error e
    | .ok none => .ok none
    | .ok (some (value, p2)) =>
      let p3 := if p2.peekToken = some .Semicolon then p2.step else p2
      .ok (some (.returnStmt value, p3))

/-- `Parser::parse_expression`. -/
def parseExpression : Nat → Parser → Precedence → PRes Expression
  | 0, _, _ => .ok none
  | fuel + 1, p, prec =>
    match parsePrefix fuel p with
    | .error e => .error e
    | .ok none => .ok none
    | .ok (some (left, p2)) => parseExpressionLoop fuel left p2 prec

/-- The `while` loop inside `Parser::parse_expression`. -/
def parseExpressionLoop : Nat → Expression → Parser → Precedence → PRes Expression
  | 0, _, _, _ => .ok none
  | fuel + 1, left, p, prec =>
    if p.peekToken ≠ some .Semicolon &&
        prec.value < (p.peekPrecedence.getD .Lowest).value then
      if !((p.peekToken.map Token.isInfix).getD false) then
        .ok (some (left, p))
      else
        match parseInfix fuel left p.step with
        | .error e => .error e
        | .ok none => .ok none
        | .ok (some (left2, p2)) => parseExpressionLoop fuel left2 p2 prec
    else
      .ok (some (left, p))

/-- `Parser::parse_prefix`.  Note: there is no arm for `Token::Lsquigly`,
so a hash literal in expression position falls through to the
`NotAnExpression` default arm, exactly as in `src/parse/mod.rs`. -/
def parsePrefix : Nat → Parser → PRes Expression
  | 0, _ => .ok none
  | fuel + 1, p =>
    match p.currentToken with
    | some (.Ident name) =>
      .ok (some (.identifier name, { p with currentToken := none }))
    | some (.String value) =>
      .ok (some (.stringLiteral value, { p with currentToken := none }))
    | some (.Int value) =>
      match parseI64 value with
      | .error e => .error e
      | .ok n => .ok (some (.integerLiteral n, p))
    | some .Bang => parsePrefixOperator fuel p
    | some .Minus => parsePrefixOperator fuel p
    | some .True => .ok (some (.booleanLiteral true, p))
    | some .False => .ok (some (.booleanLiteral false, p))
    | some .Lparen => parseGrouped fuel p
    | some .LBracket => parseArrayLiteral fuel p
    | some .If => parseIfExpression fuel p
    | some .Function => parseFunctionLiteral fuel p
    | t => .error (.NotAnExpression t)

/-- `Parser::parse_infix`. -/
def parseInfix : Nat → Expression → Parser → PRes Expression
  | 0, _, _ => .ok none
  | fuel + 1, left, p =>
    match p.currentToken with
    | some .Plus | some .Minus | some .Asterisk | some .Slash
    | some .Eq | some .NotEq | some .Lt | some .Gt =>
      parseInfixOperator fuel left p
    | some .Lparen => parseCallExpression fuel left p
    | some .LBracket => parseIndexExpression fuel left p
    | _ => .ok (some (left, p))

/-- `Parser::parse_prefix_operator`. -/
def parsePrefixOperator : Nat → Parser → PRes Expression
  | 0, _ => .ok none
  | fuel + 1, p =>
    match PrefixOperatorKind.tryFrom p.currentToken with
    | .error e => .error e
    | .ok op =>
      match parseExpression fuel p.step .Prefix with
      | .error e => .error e
      | .ok none => .ok none
      | .ok (some (right, p2)) => .ok (some (.prefixOperator op right, p2))

/-- `Parser::parse_grouped`. -/
def parseGrouped : Nat → Parser → PRes Expression
  | 0, _ => .ok none
  | fuel + 1, p =>
    match parseExpression fuel p.step .Lowest with
    | .error e => .error e
    | .ok none => .ok none
    | .ok (some (expr, p2)) =>
      if p2.peekToken = some .Rparen then .ok (some (expr, p2.step))
      else .error (ParseError.unexpectedToken p2.peekToken)

/-- `Parser::parse_if_expression`. -/
def parseIfExpression : Nat → Parser → PRes Expression
  | 0, _ => .ok none
  | fuel + 1, p =>
    if p.peekToken ≠ some .Lparen then
      .error (ParseError.unexpectedToken p.peekToken)
    else
      match parseExpression fuel p.step.step .Lowest with
      | .error e => .error e
      | .ok none => .ok none
      | .ok (some (condition, p2)) =>
        if p2.peekToken ≠ some .Rparen then
          .error (ParseError.unexpectedToken p2.peekToken)
        else
          let p3 := p2.step
          if p3.peekToken ≠ some .Lsquigly then
            .error (ParseError.unexpectedToken p3.peekToken)
          else
            match parseBlockStatement fuel p3.step with
            | .error e => .error e
            | .ok none => .ok none
            | .ok (some (consequence, p4)) =>
              if p4.currentToken ≠ some .Rsquigly then
                .error (ParseError.unexpectedToken p4.currentToken)
              else if p4.peekToken = some .Else then
                let p5 := p4.step
                if p5.peekToken ≠ some .Lsquigly then
                  .error (ParseError.unexpectedToken p5.peekToken)
                else
                  match parseBlockStatement fuel p5.step with
                  | .error e => .error e
                  | .ok none => .ok none
                  | .ok (some (alternative, p6)) =>
                    if p6.currentToken ≠ some .Rsquigly then
                      .error (ParseError.unexpectedToken p6.currentToken)
                    else
                      .ok (some (.ifExpr condition consequence alternative, p6))
              else
                .ok (some (.ifExpr condition consequence (.mk []), p4))

/-- `Parser::parse_function_literal`. -/
def parseFunctionLiteral : Nat → Parser → PRes Expression
  | 0, _ => .ok none
  | fuel + 1, p =>
    if p.peekToken ≠ some .Lparen then
      .error (ParseError.unexpectedToken p.peekToken)
    else
      match parseFunctionParameters fuel p.step with
      | .error e => .error e
      | .ok none => .ok none
      | .ok (some (parameters, p2)) =>
        if p2.peekToken ≠ some .Lsquigly then
          .error (ParseError.unexpectedToken p2.peekToken)
        else
          match parseBlockStatement fuel p2.step with
          | .error e => .error e
          | .ok none => .ok none
          | .ok (some (body, p3)) =>
            .ok (some (.functionLiteral parameters body, p3))

/-- `Parser::parse_ident`. -/
def parseIdent : Nat → Parser → PRes Str
  | 0, _ => .ok none
  | _ + 1, p =>
    match p.currentToken with
    | some (.Ident name) => .ok (some (name, { p with currentToken := none }))
    | t => .error (ParseError.unexpectedToken t)

/-- `Parser::parse_function_parameters`. -/
def parseFunctionParameters : Nat → Parser → PRes (List Str)
  | 0, _ => .ok none
  | fuel + 1, p0 =>
    let p := p0.step
    if p.currentToken = some .Rparen then
      .ok (some ([], p))
    else
      match parseIdent fuel p with
      | .error e => .error e
      | .ok none => .ok none
      | .ok (some (first, p2)) =>
        match parseParamsLoop fuel [first] p2 with
        | .error e => .error e
        | .ok none => .ok none
        | .ok (some (idents, p3)) =>
          if p3.peekToken ≠ some .Rparen then
            .error (ParseError.unexpectedToken p3.peekToken)
          else
            .ok (some (idents.reverse, p3.step))

/-- The `while peek == Comma` loop of `parse_function_parameters`
(accumulator reversed at the end). -/
def parseParamsLoop : Nat → List Str → Parser → PRes (List Str)
  | 0, _, _ => .ok none
  | fuel + 1, acc, p =>
    if p.peekToken = some .Comma then
      match parseIdent fuel p.step.step with
      | .error e => .error e
      | .ok none => .ok none
      | .ok (some (name, p2)) => parseParamsLoop fuel (name :: acc) p2
    else
      .ok (some (acc, p))

/-- `Parser::parse_block_statement`. -/
def parseBlockStatement : Nat → Parser → PRes BlockStatement
  | 0, _ => .ok none
  | fuel + 1, p0 => parseBlockLoop fuel [] p0.step

/-- The statement loop of `parse_block_statement`. -/
def parseBlockLoop : Nat → List Statement → Parser → PRes BlockStatement
  | 0, _, _ => .ok none
  | fuel + 1, acc, p =>
    if p.currentToken.isSome && p.currentToken ≠ some .Rsquigly then
      match parseStatement fuel p with
      | .error e => .error e
      | .ok none => .ok none
      | .ok (some (stmt, p2)) => parseBlockLoop fuel (stmt :: acc) p2.step
    else
      .ok (some (.mk acc.reverse, p))

/-- `Parser::parse_infix_operator`. -/
def parseInfixOperator : Nat → Expression → Parser → PRes Expression
  | 0, _, _ => .ok none
  | fuel + 1, left, p =>
    match InfixOperatorKind.tryFrom p.currentToken with
    | .error e => .error e
    | .ok op =>
      let prec := Precedence.fromOptToken p.currentToken
      match parseExpression fuel p.step prec with
      | .error e => .error e
      | .ok none => .ok none
      | .ok (some (right, p2)) =>
        .ok (some (.infixOperator op left right, p2))

/-- `Parser::parse_call_expression`. -/
def parseCallExpression : Nat → Expression → Parser → PRes Expression
  | 0, _, _ => .ok none
  | fuel + 1, left, p =>
    match parseExpressionList fuel .Rparen p with
    | .error e => .error e
    | .ok none => .ok none
    | .ok (some (args, p2)) => .ok (some (.functionCall left args, p2))

/-- `Parser::parse_expression_list`. -/
def parseExpressionList : Nat → Token → Parser → PRes (List Expression)
  | 0, _, _ => .ok none
  | fuel + 1, endTok, p0 =>
    let p := p0.step
    if p.currentToken = some endTok then
      .ok (some ([], p))
    else
      match parseExpression fuel p .Lowest with
      | .error e => .error e
      | .ok none => .ok none
      | .ok (some (first, p2)) =>
        match parseExprListLoop fuel [first] p2 with
        | .error e => .error e
        | .ok none => .ok none
        | .ok (some (list, p3)) =>
          if p3.peekToken ≠ some endTok then
            .error (ParseError.unexpectedToken p3.peekToken)
          else
            .ok (some (list.reverse, p3.step))

/-- The `while peek == Comma` loop of `parse_expression_list`. -/
def parseExprListLoop : Nat → List Expression → Parser → PRes (List Expression)
  | 0, _, _ => .ok none
  | fuel + 1, acc, p =>
    if p.peekToken = some .Comma then
      match parseExpression fuel p.step.step .Lowest with
      | .error e => .error e
      | .ok none => .ok none
      | .ok (some (e, p2)) => parseExprListLoop fuel (e :: acc) p2
    else
      .ok (some (acc, p))

/-- `Parser::parse_array_literal`. -/
def parseArrayLiteral : Nat → Parser → PRes Expression
  | 0, _ => .ok none
  | fuel + 1, p =>
    match parseExpressionList fuel .RBracket p with
    | .error e => .error e
    | .ok none => .ok none
    | .ok (some (elements, p2)) => .ok (some (.arrayLiteral elements, p2))

/-- `Parser::parse_index_expression`. -/
def parseIndexExpression : Nat → Expression → Parser → PRes Expression
  | 0, _, _ => .ok none
  | fuel + 1, left, p =>
    match parseExpression fuel p.step .Lowest with
    | .error e => .error e
    | .ok none => .ok none
    | .ok (some (index, p2)) =>
      if p2.peekToken ≠ some .RBracket then
        .error (ParseError.unexpectedToken p2.peekToken)
      else
        .ok (some (.indexExpr left index, p2.step))

end

/-- Outcome of `parse::parse`: the lexer may panic, parsing may fail, and a
fueled run may also run out of fuel (never with the fuel chosen in
`parse`). -/
inductive ParseOutcome where
  | ok (p : Program)
  | err (e : ParseError)
  | crash
  | outOfFuel

/-- `parse::parse` over input bytes. -/
def parse (input : List Nat) : ParseOutcome :=
  match tokenize input with
  | .crash => .crash
  | .outOfFuel => .outOfFuel
  | .ok ts =>
    match parseProgram (ts.length * 4 + 16) (Parser.new ts) [] with
    | .error e => .err e
    | .ok none => .outOfFuel
    | .ok (some (stmts, _)) => .ok ⟨stmts⟩

/-! ## Bytecode instructions (src/code.rs) -/

/-- `object::builtin::BuiltinFunction` (src/object/builtin.rs). -/
inductive BuiltinFunction where
  | len
  | first
  | last
  | rest
  | push
  | puts
  deriving DecidableEq, Repr

/-- `BuiltinFunction::from_ident`. -/
def BuiltinFunction.fromIdent (ident : Str) : Option BuiltinFunction :=
  if ident = ("len") then some .len
  else if ident = ("first") then some .first
  else if ident = ("last") then some .last
  else if ident = ("rest") then some .rest
  else if ident = ("push") then some .push
  else if ident = ("puts") then some .puts
  else none

/-- `code::Instruction`.  Operands are `u16`/`u8` in the source; they are
embedded as `Nat`, with the `as u16` / `as u8` casts of the compiler made
explicit at the emission sites. -/
inductive Instruction where
  | Constant (idx : Nat)
  | Add
  | Sub
  | Mul
  | Div
  | Pop
  | Null
  | True
  | False
  | Equal
  | NotEqual
  | GreaterThan
  | Minus
  | Bang
  | JumpNotTruthy (pos : Nat)
  | Jump (pos : Nat)
  | GetGlobal (idx : Nat)
  | SetGlobal (idx : Nat)
  | GetLocal (idx : Nat)
  | SetLocal (idx : Nat)
  | GetBuiltin (f : BuiltinFunction)
  | GetFree (idx : Nat)
  | Array (len : Nat)
  | Hash (len : Nat)
  | Index
  | Call (numArgs : Nat)
  | ReturnValue
  | Closure (constantIndex : Nat) (freeVariables : Nat)
  | CurrentClosure
  deriving DecidableEq, Repr

/-- The `as u16` cast. -/
def castU16 (n : Nat) : Nat := n % 65536

/-- The `as u8` cast. -/
def castU8 (n : Nat) : Nat := n % 256

/-! ## Runtime values (src/object/mod.rs) -/

/-- `object::HashKey`: the value kinds allowed as hash-map keys. -/
inductive HashKey where
  | string (s : Str)
  | integer (i : Int)
  | boolean (b : Bool)
  deriving DecidableEq, Repr

/-- `object::Object`.  The single runtime value type shared by the evaluator
and the VM.  Differences from the Rust declaration forced by the shallow
embedding:

* `Rc` sharing is dropped (values are by-value, as the spec's semantics
  prescribes and as `PartialEq` observes them);
* `HashMap<HashKey, Object>` becomes an association list with unique keys,
  built by `hashInsert` (insertion replaces the previous binding, like
  `HashMap::insert`);
* the `Function` variant's captured `Environment` (a weak reference into the
  evaluator's arena) becomes the arena index of the environment node;
* `CompiledFunction` and `Closure` are flattened into their fields. -/
inductive Object where
  | integer (i : Int)
  | string (s : Str)
  | boolean (b : Bool)
  | ret (o : Object)
  | function (parameters : List Str) (body : BlockStatement) (environment : Nat)
  | builtin (f : BuiltinFunction)
  | array (elements : List Object)
  | hash (pairs : List (HashKey × Object))
  | null
  | compiledFunction (instructions : List Instruction) (numLocals numArguments : Nat)
  | closure (instructions : List Instruction) (numLocals numArguments : Nat)
      (free : List Object)

/-- `object::DataType`. -/
inductive DataType where
  | Integer
  | String
  | Boolean
  | Return
  | Function
  | Builtin
  | Array
  | HashMap
  | Null
  | CompiledFunction
  | Closure
  deriving DecidableEq, Repr

/-- `From<&Object> for DataType`. -/
def Object.dataType : Object → DataType
  | .integer _ => .Integer
  | .string _ => .String
  | .boolean _ => .Boolean
  | .ret _ => .Return
  | .function _ _ _ => .Function
  | .builtin _ => .Builtin
  | .array _ => .Array
  | .hash _ => .HashMap
  | .null => .Null
  | .compiledFunction _ _ _ => .CompiledFunction
  | .closure _ _ _ _ => .Closure

/-- `Display for DataType`. -/
def DataType.display : DataType → Str
  | .Integer => "INTEGER"
  | .String => "STRING"
  | .Boolean => "BOOLEAN"
  | .Return => "RETURN"
  | .Function => "FUNCTION"
  | .Builtin => "BUILTIN"
  | .Array => "ARRAY"
  | .HashMap => "HASH_MAP"
  | .Null => "NULL"
  | .CompiledFunction => "COMPILED_FUNCTION"
  | .Closure => "CLOSURE"

/-- `Object::is_truthy`: everything but `Boolean(false)` and `Null`. -/
def Object.isTruthy : Object → Bool
  | .boolean false => false
  | .null => false
  | _ => true

/-- `TryFrom<Object> for HashKey`: only strings, integers and booleans are
hashable; the error carries the value's data type. -/
def Object.tryIntoHashKey : Object → Except DataType HashKey
  | .string s => .ok (.string s)
  | .integer i => .ok (.integer i)
  | .boolean b => .ok (.boolean b)
  | o => .error o.dataType

/-- Lookup in the association-list model of `HashMap<HashKey, Object>`
(`HashMap::get`). -/
def hashGet (pairs : List (HashKey × Object)) (k : HashKey) : Option Object :=
  (pairs.find? (fun p => p.1 = k)).map (fun p => p.2)

/-- `HashMap::insert` on the association-list model: replace the binding if
the key is present, append otherwise. -/
def hashInsert (pairs : List (HashKey × Object)) (k : HashKey) (v : Object) :
    List (HashKey × Object) :=
  match pairs with
  | [] => [(k, v)]
  | (k1, v1) :: rest =>
    if k1 = k then (k, v) :: rest else (k1, v1) :: hashInsert rest k v

/-! ## Built-in functions (src/object/builtin.rs) -/

/-- `object::builtin::ExecutionError`. -/
inductive ExecutionError where
  | typeMismatch (dt : Str)
  | wrongNumberOfArguments (expected got : Nat)
  deriving DecidableEq, Repr

/-- `String::len` is the UTF-8 byte length. -/
def strByteLen (s : Str) : Nat := (strBytes s).length

/-- `execute_len`. -/
def executeLen (args : List Object) : Except ExecutionError Object :=
  if args.length ≠ 1 then
    .error (.wrongNumberOfArguments 1 args.length)
  else
    match args.getD 0 .null with
    | .string s => .ok (.integer (Int.ofNat (strByteLen s)))
    | .array arr => .ok (.integer (Int.ofNat arr.length))
    | o => .error (.typeMismatch o.dataType.display)

/-- `execute_first`. -/
def executeFirst (args : List Object) : Except ExecutionError Object :=
  if args.length ≠ 1 then
    .error (.wrongNumberOfArguments 1 args.length)
  else
    match args.getD 0 .null with
    | .array arr =>
      match arr with
      | [] => .ok .null
      | x :: _ => .ok x
    | o => .error (.typeMismatch o.dataType.display)

/-- `execute_last`. -/
def executeLast (args : List Object) : Except ExecutionError Object :=
  if args.length ≠ 1 then
    .error (.wrongNumberOfArguments 1 args.length)
  else
    match args.getD 0 .null with
    | .array arr =>
      match arr.getLast? with
      | none => .ok .null
      | some x => .ok x
    | o => .error (.typeMismatch o.dataType.display)

/-- `execute_rest`: `Null` on the empty array, otherwise a fresh array
holding `arr[1..]`. -/
def executeRest (args : List Object) : Except ExecutionError Object :=
  if args.length ≠ 1 then
    .error (.wrongNumberOfArguments 1 args.length)
  else
    match args.getD 0 .null with
    | .array arr =>
      match arr with
      | [] => .ok .null
      | _ :: tail => .ok (.array tail)
    | o => .error (.typeMismatch o.dataType.display)

/-- `execute_push`: a fresh array holding the old elements followed by the
second argument. -/
def executePush (args : List Object) : Except ExecutionError Object :=
  if args.length ≠ 2 then
    .error (.wrongNumberOfArguments 2 args.length)
  else
    match args.getD 0 .null with
    | .array arr => .ok (.array (arr ++ [args.getD 1 .null]))
    | o => .error (.typeMismatch o.dataType.display)

/-- `execute_puts`: printing is outside the embedding; the value result is
`Null`. -/
def executePuts (_args : List Object) : Except ExecutionError Object :=
  .ok .null

/-- `BuiltinFunction::execute` from src/object/builtin.rs. -/
def BuiltinFunction.execute (f : BuiltinFunction) (args : List Object) :
    Except ExecutionError Object :=
  match f with
  | .len => executeLen args
  | .first => executeFirst args
  | .last => executeLast args
  | .rest => executeRest args
  | .push => executePush args
  | .puts => executePuts args

/-! ## Evaluator (src/evaluate/mod.rs, src/evaluate/environment.rs,
src/evaluate/builtin.rs, src/evaluate/error.rs)

`Environment` in the source is a weak reference to a reference-counted
node (`Weak<RefCell<EnvironmentInner>>`); the strong owner
(`EnvironmentOwner`) lives in the evaluator's `environment_owners` set.
We embed the owner set as an arena: a list of optional nodes indexed by
environment id.  A `none` slot is an environment whose owner has been
dropped; every `upgrade().expect(...)` in the source becomes a `crash`
on a `none` slot. -/

/-- `EnvironmentInner`: the bindings plus the weak reference to the outer
environment (an arena index). -/
structure EnvNode where
  store : List (Str × Object)
  outer : Option Nat

/-- `HashMap::get` on the binding store. -/
def storeGet (store : List (Str × Object)) (name : Str) : Option Object :=
  (store.find? (fun p => p.1 = name)).map (fun p => p.2)

/-- `HashMap::insert` on the binding store. -/
def storeSet (store : List (Str × Object)) (name : Str) (v : Object) :
    List (Str × Object) :=
  match store with
  | [] => [(name, v)]
  | (n1, v1) :: rest =>
    if n1 = name then (name, v) :: rest else (n1, v1) :: storeSet rest name v

/-- The environment arena: slot `i` owns environment `i`; `none` means the
owner was dropped. -/
abbrev EnvArena := List (Option EnvNode)

/-- `evaluate::Error` (constructor payloads follow the call sites in
src/evaluate/mod.rs, which format data types to strings). -/
inductive RuntimeError where
  | TypeMismatch (s : Str)
  | UnknownOperator (s : Str)
  | UnknownIdentifier (s : Str)
  | NotAFunction (s : Str)
  | IndexOperatorNotSupported (left index : Str)
  | NotHashable (dt : DataType)
  | WrongNumberOfArguments (expected got : Nat)
  deriving DecidableEq, Repr

/-- Outcome tag of an evaluator run: a runtime error, a panic (`crash`:
dropped-environment access, `todo!()`, out-of-bounds argument indexing),
or fuel exhaustion (an artifact of the embedding, never produced with
sufficient fuel). -/
inductive EvalErr where
  | err (e : RuntimeError)
  | crash
  | outOfFuel
  deriving DecidableEq, Repr

/-- Result type of evaluator functions. -/
abbrev EvalRes (α : Type) := Except EvalErr α

/-- `Environment::get` / `EnvironmentInner::get`: search the store, then the
outer chain; accessing a dropped environment panics. -/
def envGet : Nat → EnvArena → Nat → Str → EvalRes (Option Object)
  | 0, _, _, _ => .error .outOfFuel
  | fuel + 1, arena, id, name =>
    match arena.getD id none with
    | none => .error .crash
    | some node =>
      match storeGet node.store name with
      | some v => .ok (some v)
      | none =>
        match node.outer with
        | some outerId => envGet fuel arena outerId name
        | none => .ok none

/-- `Environment::set`: mutate the store of a live node (panic when the
node was dropped). -/
def envSet (arena : EnvArena) (id : Nat) (name : Str) (v : Object) :
    EvalRes EnvArena :=
  match arena.getD id none with
  | none => .error .crash
  | some node => .ok (arena.set id (some { node with store := storeSet node.store name v }))

/-- `Environment::extend`: a fresh node whose outer pointer is the extended
environment (`extend` clones the weak reference, so it never panics). -/
def envExtend (arena : EnvArena) (id : Nat) : Nat × EnvArena :=
  (arena.length, arena ++ [some { store := [], outer := some id }])

/-- The `Evaluator` struct: the current environment handle plus the arena
of owned environment nodes (`environment_owners`). -/
structure Evaluator where
  environment : Nat
  arena : EnvArena

/-- `Evaluator::new`. -/
def Evaluator.create : Evaluator :=
  { environment := 0, arena := [some { store := [], outer := none }] }

/-- `BuiltinFunction::execute` from src/evaluate/builtin.rs: only `len` is
implemented; every other built-in body is `todo!()`, which panics. -/
def evalBuiltinExecute (f : BuiltinFunction) (args : List Object) :
    EvalRes Object :=
  match f with
  | .len =>
    if args.length ≠ 1 then
      .error (.err (.WrongNumberOfArguments 1 args.length))
    else
      match args.getD 0 .null with
      | .string s => .ok (.integer (Int.ofNat (strByteLen s)))
      | o => .error (.err (.TypeMismatch o.dataType.display))
  | _ => .error .crash

/-- The infix-operator dispatch of `Evaluator::evaluate_infix_operator`
(after both operands are evaluated). -/
def evalInfix (op : InfixOperatorKind) (l r : Object) (arena : EnvArena) :
    EvalRes (Object × EnvArena) :=
  match l, r with
  | .integer a, .integer b =>
    match op with
    | .Add => .ok (.integer (wrap64 (a + b)), arena)
    | .Subtract => .ok (.integer (wrap64 (a - b)), arena)
    | .Multiply => .ok (.integer (wrap64 (a * b)), arena)
    | .Divide =>
      if b = 0 then .error .crash else .ok (.integer (wrap64 (Int.tdiv a b)), arena)
    | .Equal => .ok (.boolean (a = b), arena)
    | .NotEqual => .ok (.boolean (a ≠ b), arena)
    | .GreaterThan => .ok (.boolean (b < a), arena)
    | .LessThan => .ok (.boolean (a < b), arena)
  | .boolean a, .boolean b =>
    match op with
    | .Equal => .ok (.boolean (a = b), arena)
    | .NotEqual => .ok (.boolean (a ≠ b), arena)
    | _ =>
      .error (.err (.UnknownOperator
        (l.dataType.display ++ " " ++ op.debugStr ++ " " ++ r.dataType.display)))
  | .string a, .string b =>
    match op with
    | .Add => .ok (.string (a ++ b), arena)
    | _ =>
      .error (.err (.UnknownOperator
        (l.dataType.display ++ " " ++ op.debugStr ++ " " ++ r.dataType.display)))
  | _, _ =>
    if l.dataType ≠ r.dataType then
      .error (.err (.TypeMismatch
        (l.dataType.display ++ " " ++ op.debugStr ++ " " ++ r.dataType.display)))
    else
      .error (.err (.UnknownOperator
        (l.dataType.display ++ " " ++ op.debugStr ++ " " ++ r.dataType.display)))

/-- The index dispatch of `Evaluator::evaluate_index` (after both operands
are evaluated). -/
def evalIndex (l i : Object) (arena : EnvArena) : EvalRes (Object × EnvArena) :=
  match l with
  | .array arr =>
    match i with
    | .integer idx =>
      if idx < 0 then .ok (.null, arena)
      else if h : idx.toNat < arr.length then .ok (arr.get ⟨idx.toNat, h⟩, arena)
      else .ok (.null, arena)
    | _ =>
      .error (.err (.IndexOperatorNotSupported l.dataType.display i.dataType.display))
  | .hash pairs =>
    match i.tryIntoHashKey with
    | .error dt => .error (.err (.NotHashable dt))
    | .ok key =>
      match hashGet pairs key with
      | some obj => .ok (obj, arena)
      | none => .ok (.null, arena)
  | _ =>
    .error (.err (.IndexOperatorNotSupported l.dataType.display i.dataType.display))

/-- The parameter-binding loop of `evaluate_function_call`:
`args[index]` panics when fewer arguments than parameters were passed
(the source performs no arity check). -/
def bindParameters (arena : EnvArena) (extId : Nat) :
    List Str → List Object → Nat → EvalRes EnvArena
  | [], _, _ => .ok arena
  | param :: params, args, index =>
    if h : index < args.length then
      match envSet arena extId param (args.get ⟨index, h⟩) with
      | .error e => .error e
      | .ok arena2 => bindParameters arena2 extId params args (index + 1)
    else
      .error .crash

mutual

/-- `Evaluator::evaluate_statement`. -/
def evalStatement : Nat → Statement → Nat → EnvArena → EvalRes (Object × EnvArena)
  | 0, _, _, _ => .error .outOfFuel
  | fuel + 1, stmt, env, arena =>
    match stmt with
    | .letStmt name value =>
      match evalExpression fuel value env arena with
      | .error e => .error e
      | .ok (v, arena2) =>
        match envSet arena2 env name v with
        | .error e => .error e
        | .ok arena3 => .ok (.null, arena3)
    | .returnStmt e =>
      match evalExpression fuel e env arena with
      | .error er => .error er
      | .ok (v, arena2) => .ok (.ret v, arena2)
    | .exprStmt e => evalExpression fuel e env arena
  termination_by structural fuel _ _ _ => fuel

/-- `Evaluator::evaluate_expression`. -/
def evalExpression : Nat → Expression → Nat → EnvArena → EvalRes (Object × EnvArena)
  | 0, _, _, _ => .error .outOfFuel
  | fuel + 1, expr, env, arena =>
    match expr with
    | .identifier ident =>
      match envGet (arena.length + 1) arena env ident with
      | .error e => .error e
      | .ok (some v) => .ok (v, arena)
      | .ok none =>
        match BuiltinFunction.fromIdent ident with
        | some f => .ok (.builtin f, arena)
        | none => .error (.err (.UnknownIdentifier ident))
    | .stringLiteral v => .ok (.string v, arena)
    | .integerLiteral v => .ok (.integer v, arena)
    | .booleanLiteral v => .ok (.boolean v, arena)
    | .arrayLiteral elems =>
      match evalExpressionList fuel elems env arena with
      | .error e => .error e
      | .ok (vals, arena2) => .ok (.array vals, arena2)
    | .hashLiteral pairs => evalHashPairs fuel pairs env arena []
    | .prefixOperator op right =>
      match evalExpression fuel right env arena with
      | .error e => .error e
      | .ok (r, arena2) =>
        match op with
        | .Not =>
          match r with
          | .boolean v => .ok (.boolean (!v), arena2)
          | .null => .ok (.boolean true, arena2)
          | _ => .ok (.boolean false, arena2)
        | .Negative =>
          match r with
          | .integer v => .ok (.integer (wrap64 (-v)), arena2)
          | _ => .error (.err (.UnknownOperator ("-" ++ r.dataType.display)))
    | .infixOperator op left right =>
      match evalExpression fuel left env arena with
      | .error e => .error e
      | .ok (l, arena2) =>
        match evalExpression fuel right env arena2 with
        | .error e => .error e
        | .ok (r, arena3) => evalInfix op l r arena3
    | .ifExpr condition consequence alternative =>
      match evalExpression fuel condition env arena with
      | .error e => .error e
      | .ok (c, arena2) =>
        if c.isTruthy then evalBlock fuel consequence env arena2
        else evalBlock fuel alternative env arena2
    | .functionLiteral parameters body =>
      .ok (.function parameters body env, arena)
    | .functionCall function arguments =>
      match evalExpressionList fuel arguments env arena with
      | .error e => .error e
      | .ok (args, arena2) =>
        match evalExpression fuel function env arena2 with
        | .error e => .error e
        | .ok (f, arena3) =>
          match f with
          | .function parameters body fenv =>
            let (extId, arena4) := envExtend arena3 fenv
            match bindParameters arena4 extId parameters args 0 with
            | .error e => .error e
            | .ok arena5 =>
              match evalBlock fuel body extId arena5 with
              | .error e => .error e
              | .ok (evaluated, arena6) =>
                match evaluated with
                | .ret obj => .ok (obj, arena6)
                | r => .ok (r, arena6)
          | .builtin bf =>
            match evalBuiltinExecute bf args with
            | .error e => .error e
            | .ok v => .ok (v, arena3)
          | other => .error (.err (.NotAFunction other.dataType.display))
    | .indexExpr left index =>
      match evalExpression fuel left env arena with
      | .error e => .error e
      | .ok (l, arena2) =>
        match evalExpression fuel index env arena2 with
        | .error e => .error e
        | .ok (i, arena3) => evalIndex l i arena3
  termination_by structural fuel _ _ _ => fuel

/-- `Evaluator::evaluate_block_statement`: run the statements in order,
returning early (with the `Return` value unchanged) as soon as a statement
produces one; an empty block yields `Null`. -/
def evalBlock : Nat → BlockStatement → Nat → EnvArena → EvalRes (Object × EnvArena)
  | 0, _, _, _ => .error .outOfFuel
  | fuel + 1, block, env, arena => evalStmtList fuel block.statements env arena
  termination_by structural fuel _ _ _ => fuel

/-- The statement loop of `evaluate_block_statement`. -/
def evalStmtList : Nat → List Statement → Nat → EnvArena → EvalRes (Object × EnvArena)
  | 0, _, _, _ => .error .outOfFuel
  | _ + 1, [], _, arena => .ok (.null, arena)
  | fuel + 1, stmt :: rest, env, arena =>
    match evalStatement fuel stmt env arena with
    | .error e => .error e
    | .ok (res, arena2) =>
      match res, rest with
      | .ret v, _ => .ok (.ret v, arena2)
      | r, [] => .ok (r, arena2)
      | _, _ :: _ => evalStmtList fuel rest env arena2
  termination_by structural fuel _ _ _ => fuel

/-- The left-to-right evaluation of an expression list (array elements and
call arguments). -/
def evalExpressionList : Nat → List Expression → Nat → EnvArena →
    EvalRes (List Object × EnvArena)
  | 0, _, _, _ => .error .outOfFuel
  | _ + 1, [], _, arena => .ok ([], arena)
  | fuel + 1, e :: es, env, arena =>
    match evalExpression fuel e env arena with
    | .error er => .error er
    | .ok (v, arena2) =>
      match evalExpressionList fuel es env arena2 with
      | .error er => .error er
      | .ok (vs, arena3) => .ok (v :: vs, arena3)
  termination_by structural fuel _ _ _ => fuel

/-- `Evaluator::evaluate_hash_literal`: evaluate `key` then `value` for each
pair in source order, inserting left to right (so a later duplicate key
overwrites an earlier one); unhashable keys are a `NotHashable` error. -/
def evalHashPairs : Nat → List HashPair → Nat → EnvArena →
    List (HashKey × Object) → EvalRes (Object × EnvArena)
  | 0, _, _, _, _ => .error .outOfFuel
  | _ + 1, [], _, arena, acc => .ok (.hash acc, arena)
  | fuel + 1, pair :: pairs, env, arena, acc =>
    match evalExpression fuel pair.key env arena with
    | .error e => .error e
    | .ok (k, arena2) =>
      match evalExpression fuel pair.value env arena2 with
      | .error e => .error e
      | .ok (v, arena3) =>
        match k.tryIntoHashKey with
        | .error dt => .error (.err (.NotHashable dt))
        | .ok key => evalHashPairs fuel pairs env arena3 (hashInsert acc key v)
  termination_by structural fuel _ _ _ _ => fuel
end

mutual

/-- `Evaluator::collect_used_environments`: upgrade (panicking when the
node is gone), then mark and recurse through the store values unless the
environment was already marked. -/
def collectUsedEnvs : Nat → EnvArena → Nat → List Nat → EvalRes (List Nat)
  | 0, _, _, _ => .error .outOfFuel
  | fuel + 1, arena, id, used =>
    match arena.getD id none with
    | none => .error .crash
    | some node =>
      if used.contains id then .ok used
      else collectUsedStore fuel arena node.store (id :: used)

/-- Marking pass over the values of one environment's store. -/
def collectUsedStore : Nat → EnvArena → List (Str × Object) → List Nat →
    EvalRes (List Nat)
  | 0, _, _, _ => .error .outOfFuel
  | _ + 1, _, [], used => .ok used
  | fuel + 1, arena, (_, v) :: rest, used =>
    match collectUsedFromObj fuel arena v used with
    | .error e => .error e
    | .ok used2 => collectUsedStore fuel arena rest used2

/-- `Evaluator::collect_used_environments_from_obj`: only `Function`
captures and `Return` payloads are walked; in particular the *outer*
reference of an environment is never followed. -/
def collectUsedFromObj : Nat → EnvArena → Object → List Nat → EvalRes (List Nat)
  | 0, _, _, _ => .error .outOfFuel
  | fuel + 1, arena, obj, used =>
    match obj with
    | .function _ _ envId => collectUsedEnvs fuel arena envId used
    | .ret o => collectUsedFromObj fuel arena o used
    | _ => .ok used

end

/-- Drop every arena slot whose id was not marked. -/
def sweepArena : EnvArena → List Nat → Nat → EnvArena
  | [], _, _ => []
  | slot :: rest, used, i =>
    (if used.contains i then slot else none) :: sweepArena rest used (i + 1)

/-- `Evaluator::collect_garbage`. -/
def collectGarbage (fuel : Nat) (ev : Evaluator) : EvalRes Evaluator :=
  match collectUsedEnvs fuel ev.arena ev.environment [] with
  | .error e => .error e
  | .ok used => .ok { ev with arena := sweepArena ev.arena used 0 }

/-- The statement loop of `Evaluator::evaluate`: like a block, but the
first `Return` ends the program with its payload unwrapped. -/
def evalProgramStmts : Nat → List Statement → Nat → EnvArena → EvalRes (Object × EnvArena)
  | 0, _, _, _ => .error .outOfFuel
  | _ + 1, [], _, arena => .ok (.null, arena)
  | fuel + 1, stmt :: rest, env, arena =>
    match evalStatement fuel stmt env arena with
    | .error e => .error e
    | .ok (res, arena2) =>
      match res, rest with
      | .ret obj, _ => .ok (obj, arena2)
      | r, [] => .ok (r, arena2)
      | _, _ :: _ => evalProgramStmts fuel rest env arena2

/-- `Evaluator::evaluate`: run the program's statements against the
evaluator's current environment, then mark-and-sweep the environment
arena. -/
def Evaluator.evaluate (fuel : Nat) (ev : Evaluator) (p : Program) :
    EvalRes (Object × Evaluator) :=
  match evalProgramStmts fuel p.statements ev.environment ev.arena with
  | .error e => .error e
  | .ok (res, arena2) =>
    match collectGarbage fuel { ev with arena := arena2 } with
    | .error e => .error e
    | .ok ev2 => .ok (res, ev2)

/-! ## Structural equality (`PartialEq` derives) -/

mutual

/-- `PartialEq for ast::Expression` (derived structural equality). -/
def exprBEq : Expression → Expression → Bool
  | .identifier a, .identifier b => a == b
  | .integerLiteral a, .integerLiteral b => a == b
  | .booleanLiteral a, .booleanLiteral b => a == b
  | .stringLiteral a, .stringLiteral b => a == b
  | .arrayLiteral xs, .arrayLiteral ys => exprListBEq xs ys
  | .hashLiteral xs, .hashLiteral ys => hashPairListBEq xs ys
  | .prefixOperator o1 r1, .prefixOperator o2 r2 => o1 == o2 && exprBEq r1 r2
  | .infixOperator o1 l1 r1, .infixOperator o2 l2 r2 =>
    o1 == o2 && exprBEq l1 l2 && exprBEq r1 r2
  | .ifExpr c1 t1 a1, .ifExpr c2 t2 a2 =>
    exprBEq c1 c2 && blockBEq t1 t2 && blockBEq a1 a2
  | .functionLiteral p1 b1, .functionLiteral p2 b2 => p1 == p2 && blockBEq b1 b2
  | .functionCall f1 a1, .functionCall f2 a2 => exprBEq f1 f2 && exprListBEq a1 a2
  | .indexExpr l1 i1, .indexExpr l2 i2 => exprBEq l1 l2 && exprBEq i1 i2
  | _, _ => false

/-- Elementwise equality of expression lists. -/
def exprListBEq : List Expression → List Expression → Bool
  | [], [] => true
  | x :: xs, y :: ys => exprBEq x y && exprListBEq xs ys
  | _, _ => false

/-- Elementwise equality of hash-literal pair lists. -/
def hashPairListBEq : List HashPair → List HashPair → Bool
  | [], [] => true
  | .mk k1 v1 :: xs, .mk k2 v2 :: ys =>
    exprBEq k1 k2 && exprBEq v1 v2 && hashPairListBEq xs ys
  | _, _ => false

/-- `PartialEq for ast::Statement`. -/
def stmtBEq : Statement → Statement → Bool
  | .letStmt n1 v1, .letStmt n2 v2 => n1 == n2 && exprBEq v1 v2
  | .returnStmt v1, .returnStmt v2 => exprBEq v1 v2
  | .exprStmt v1, .exprStmt v2 => exprBEq v1 v2
  | _, _ => false

/-- Elementwise equality of statement lists. -/
def stmtListBEq : List Statement → List Statement → Bool
  | [], [] => true
  | x :: xs, y :: ys => stmtBEq x y && stmtListBEq xs ys
  | _, _ => false

/-- `PartialEq for ast::BlockStatement`. -/
def blockBEq : BlockStatement → BlockStatement → Bool
  | .mk s1, .mk s2 => stmtListBEq s1 s2

end

mutual

/-- `PartialEq for object::Object`, as the VM's `Equal`/`NotEqual`
instructions observe it.  Arrays compare elementwise, hash maps compare as
maps (same keys, equal values, ignoring representation order).  The
`function` case compares parameters, body and the captured environment
handle; the source dereferences the environment and compares its contents
(and can panic on a dropped environment), but function values are created
only by the evaluator and never reach the VM stack, the sole caller of this
comparison. -/
def objectBEq : Object → Object → Bool
  | .integer a, .integer b => a == b
  | .string a, .string b => a == b
  | .boolean a, .boolean b => a == b
  | .ret a, .ret b => objectBEq a b
  | .function p1 b1 e1, .function p2 b2 e2 => p1 == p2 && blockBEq b1 b2 && e1 == e2
  | .builtin f1, .builtin f2 => f1 == f2
  | .array xs, .array ys => objectListBEq xs ys
  | .hash xs, .hash ys => hashMapSubsetBEq xs ys && hashMapSubsetBEq ys xs
  | .null, .null => true
  | .compiledFunction i1 l1 a1, .compiledFunction i2 l2 a2 =>
    i1 == i2 && l1 == l2 && a1 == a2
  | .closure i1 l1 a1 f1, .closure i2 l2 a2 f2 =>
    i1 == i2 && l1 == l2 && a1 == a2 && objectListBEq f1 f2
  | _, _ => false
  termination_by a b => sizeOf a + sizeOf b

/-- Elementwise equality of value lists. -/
def objectListBEq : List Object → List Object → Bool
  | [], [] => true
  | x :: xs, y :: ys => objectBEq x y && objectListBEq xs ys
  | _, _ => false
  termination_by xs ys => sizeOf xs + sizeOf ys

/-- One inclusion of `HashMap` equality: every binding on the left is
present (with an equal value) on the right. -/
def hashMapSubsetBEq : List (HashKey × Object) → List (HashKey × Object) → Bool
  | [], _ => true
  | (k, v) :: rest, ys => hashMapLookupBEq v k ys && hashMapSubsetBEq rest ys
  termination_by xs ys => sizeOf xs + sizeOf ys

/-- `HashMap::get` on the right followed by value comparison: find the key
and compare the stored value with `v`. -/
def hashMapLookupBEq (v : Object) (k : HashKey) :
    List (HashKey × Object) → Bool
  | [] => false
  | (k2, v2) :: rest => if k2 = k then objectBEq v v2 else hashMapLookupBEq v k rest
  termination_by l => sizeOf v + sizeOf l

end

/-! ## Symbol table (src/compile/symbol_table.rs) -/

/-- `SymbolScope`. -/
inductive SymbolScope where
  | Global
  | Local
  | Free
  deriving DecidableEq, Repr

/-- `Symbol` (the index is a `u16` in the source). -/
structure Symbol where
  scope : SymbolScope
  index : Nat
  deriving DecidableEq, Repr

/-- `SymbolTable`: a frame with an optional enclosing frame. -/
inductive SymbolTable where
  | mk (outer : Option SymbolTable) (store : List (Str × Symbol))
      (freeSymbols : List Symbol) (numDefinitions : Nat)

/-- The enclosing frame. -/
def SymbolTable.outer : SymbolTable → Option SymbolTable
  | .mk o _ _ _ => o

/-- The name-to-symbol store of the innermost frame. -/
def SymbolTable.store : SymbolTable → List (Str × Symbol)
  | .mk _ s _ _ => s

/-- The free symbols recorded in the innermost frame. -/
def SymbolTable.freeSymbols : SymbolTable → List Symbol
  | .mk _ _ f _ => f

/-- The definition count of the innermost frame. -/
def SymbolTable.numDefinitions : SymbolTable → Nat
  | .mk _ _ _ n => n

/-- `SymbolTable::new`. -/
def SymbolTable.new : SymbolTable := .mk none [] [] 0

/-- Store lookup (`HashMap::get`). -/
def symStoreGet (store : List (Str × Symbol)) (name : Str) : Option Symbol :=
  (store.find? (fun p => p.1 = name)).map (fun p => p.2)

/-- Store insertion (`HashMap::insert`). -/
def symStoreSet (store : List (Str × Symbol)) (name : Str) (s : Symbol) :
    List (Str × Symbol) :=
  match store with
  | [] => [(name, s)]
  | (n1, s1) :: rest =>
    if n1 = name then (name, s) :: rest else (n1, s1) :: symStoreSet rest name s

/-- `SymbolTable::enclose`. -/
def SymbolTable.enclose (t : SymbolTable) : SymbolTable :=
  .mk (some t) [] [] 0

/-- `SymbolTable::leave`: drop back to the enclosing frame, returning the
free symbols of the frame that was left. -/
def SymbolTable.leave : SymbolTable → List Symbol × SymbolTable
  | .mk none s f n => ([], .mk none s f n)
  | .mk (some o) _ f _ => (f, o)

/-- `SymbolTable::define`. -/
def SymbolTable.define (t : SymbolTable) (name : Str) : Symbol × SymbolTable :=
  let scope : SymbolScope := match t.outer with
    | none => .Global
    | some _ => .Local
  let symbol : Symbol := { scope := scope, index := t.numDefinitions }
  (symbol, .mk t.outer (symStoreSet t.store name symbol) t.freeSymbols
    (t.numDefinitions + 1))

/-- `SymbolTable::define_free`. -/
def SymbolTable.defineFree (t : SymbolTable) (original : Symbol) (name : Str) :
    Symbol × SymbolTable :=
  let freeSymbols := t.freeSymbols ++ [original]
  let symbol : Symbol := { scope := .Free, index := freeSymbols.length - 1 }
  (symbol, .mk t.outer (symStoreSet t.store name symbol) freeSymbols
    t.numDefinitions)

/-- `SymbolTable::resolve`: local store first, then the outer chain;
a non-`Global` symbol found outside is converted to a `Free` symbol of the
current frame (mutating it). -/
def SymbolTable.resolve : SymbolTable → Str → Option Symbol × SymbolTable
  | .mk outerOpt store free nd, name =>
    match symStoreGet store name with
    | some sym => (some sym, .mk outerOpt store free nd)
    | none =>
      match outerOpt with
      | some o =>
        match SymbolTable.resolve o name with
        | (none, _) => (none, .mk outerOpt store free nd)
        | (some symbol, o2) =>
          let t2 : SymbolTable := .mk (some o2) store free nd
          if symbol.scope = .Global then (some symbol, t2)
          else
            let (sym2, t3) := t2.defineFree symbol name
            (some sym2, t3)
      | none => (none, .mk outerOpt store free nd)

/-! ## Compiler (src/compile/mod.rs, src/compile/error.rs) -/

/-- `code::Bytecode`. -/
structure Bytecode where
  instructions : List Instruction
  constants : List Object

/-- `compile::Error`, plus a `crash` for the panicking control paths of the
compiler (`unreachable!()`, `expect`, and the symbol-scope dispatches that
have no arm for `Free`) and an out-of-fuel artifact. -/
inductive CompileErr where
  | UndefinedSymbol (name : Str)
  | crash
  | outOfFuel
  deriving DecidableEq, Repr

/-- The `Compiler` struct. -/
structure Compiler where
  constants : List Object
  symbolTable : SymbolTable
  scopes : List (List Instruction)
  scopeIndex : Nat

/-- `Compiler::new`. -/
def Compiler.create : Compiler :=
  { constants := [], symbolTable := SymbolTable.new, scopes := [[]], scopeIndex := 0 }

/-- `Compiler::add_constant`. -/
def Compiler.addConstant (c : Compiler) (obj : Object) : Nat × Compiler :=
  (c.constants.length, { c with constants := c.constants ++ [obj] })

/-- `Compiler::current_instructions` (read access). -/
def Compiler.currentInstructions (c : Compiler) : List Instruction :=
  c.scopes.getD c.scopeIndex []

/-- `Compiler::emit`: append to the current scope's buffer and return the
new instruction's position. -/
def Compiler.emit (c : Compiler) (i : Instruction) : Nat × Compiler :=
  let insts := c.currentInstructions ++ [i]
  (insts.length - 1, { c with scopes := c.scopes.set c.scopeIndex insts })

/-- Overwrite the instruction at a position of the current scope (the
back-patching writes of `compile_conditional`). -/
def Compiler.patch (c : Compiler) (pos : Nat) (i : Instruction) : Compiler :=
  { c with scopes := c.scopes.set c.scopeIndex (c.currentInstructions.set pos i) }

/-- `Compiler::enter_scope`. -/
def Compiler.enterScope (c : Compiler) : Compiler :=
  { c with
    scopes := c.scopes ++ [[]]
    scopeIndex := c.scopeIndex + 1
    symbolTable := c.symbolTable.enclose }

/-- `Compiler::leave_scope` (`scopes.pop().unwrap_or_default()`; the free
symbols returned by `symbol_table.leave()` are discarded, as at the call
site in `compile_function_literal`). -/
def Compiler.leaveScope (c : Compiler) : List Instruction × Compiler :=
  let instructions := (c.scopes.getLast?).getD []
  let scopes := c.scopes.dropLast
  let (_, table) := c.symbolTable.leave
  (instructions,
    { c with
      scopes := scopes
      scopeIndex := c.scopeIndex - 1
      symbolTable := table })

mutual

/-- `Compiler::compile_statement`. -/
def compileStatement : Nat → Statement → Compiler → Except CompileErr Compiler
  | 0, _, _ => .error .outOfFuel
  | fuel + 1, stmt, c =>
    match stmt with
    | .letStmt name value =>
      -- the name is defined *before* its initializer is compiled
      let (symbol, table) := c.symbolTable.define name
      let c1 := { c with symbolTable := table }
      match compileExpression fuel value c1 with
      | .error e => .error e
      | .ok c2 =>
        match symbol.scope with
        | .Global => .ok (c2.emit (.SetGlobal symbol.index)).2
        | .Local => .ok (c2.emit (.SetLocal (castU8 symbol.index))).2
        | .Free => .error .crash  -- no arm in the source dispatch
    | .returnStmt expr =>
      match compileExpression fuel expr c with
      | .error e => .error e
      | .ok c2 => .ok (c2.emit .ReturnValue).2
    | .exprStmt expr =>
      match compileExpression fuel expr c with
      | .error e => .error e
      | .ok c2 => .ok (c2.emit .Pop).2

/-- `Compiler::compile_expression`. -/
def compileExpression : Nat → Expression → Compiler → Except CompileErr Compiler
  | 0, _, _ => .error .outOfFuel
  | fuel + 1, expr, c =>
    match expr with
    | .identifier ident =>
      let (res, table) := c.symbolTable.resolve ident
      let c1 := { c with symbolTable := table }
      match res with
      | some symbol =>
        match symbol.scope with
        | .Global => .ok (c1.emit (.GetGlobal symbol.index)).2
        | .Local => .ok (c1.emit (.GetLocal (castU8 symbol.index))).2
        | .Free => .error .crash  -- no arm in the source dispatch
      | none => .error (.UndefinedSymbol ident)
    | .integerLiteral v =>
      let (idx, c1) := c.addConstant (.integer v)
      .ok (c1.emit (.Constant (castU16 idx))).2
    | .booleanLiteral v =>
      if v then .ok (c.emit .True).2 else .ok (c.emit .False).2
    | .stringLiteral s =>
      let (idx, c1) := c.addConstant (.string s)
      .ok (c1.emit (.Constant (castU16 idx))).2
    | .arrayLiteral arr =>
      match compileExpressionList fuel arr c with
      | .error e => .error e
      | .ok c1 => .ok (c1.emit (.Array (castU16 arr.length))).2
    | .hashLiteral pairs =>
      match compileHashPairs fuel pairs c with
      | .error e => .error e
      | .ok c1 => .ok (c1.emit (.Hash (castU16 (pairs.length * 2)))).2
    | .prefixOperator operator right =>
      match compileExpression fuel right c with
      | .error e => .error e
      | .ok c1 =>
        match operator with
        | .Not => .ok (c1.emit .Bang).2
        | .Negative => .ok (c1.emit .Minus).2
    | .infixOperator operator left right =>
      -- `compile_infix_operator`; `LessThan` is rewritten to `GreaterThan`
      -- with the operands compiled in swapped order.
      if operator = .LessThan then
        match compileExpression fuel right c with
        | .error e => .error e
        | .ok c1 =>
          match compileExpression fuel left c1 with
          | .error e => .error e
          | .ok c2 => .ok (c2.emit .GreaterThan).2
      else
        match compileExpression fuel left c with
        | .error e => .error e
        | .ok c1 =>
          match compileExpression fuel right c1 with
          | .error e => .error e
          | .ok c2 =>
            match operator with
            | .Add => .ok (c2.emit .Add).2
            | .Subtract => .ok (c2.emit .Sub).2
            | .Multiply => .ok (c2.emit .Mul).2
            | .Divide => .ok (c2.emit .Div).2
            | .Equal => .ok (c2.emit .Equal).2
            | .NotEqual => .ok (c2.emit .NotEqual).2
            | .GreaterThan => .ok (c2.emit .GreaterThan).2
            | .LessThan => .error .crash  -- `unreachable!()`
    | .ifExpr condition consequence alternative =>
      -- `compile_conditional`
      match compileExpression fuel condition c with
      | .error e => .error e
      | .ok c1 =>
        let (jumpNotTruthyPos, c2) := c1.emit (.JumpNotTruthy 0)
        match compileBlockStatement fuel consequence c2 with
        | .error e => .error e
        | .ok c3 =>
          let c4 :=
            if c3.currentInstructions.getLast? = some .Pop then
              { c3 with scopes := (c3.scopes.set c3.scopeIndex c3.currentInstructions.dropLast) }
            else c3
          let (jumpPos, c5) := c4.emit (.Jump 0)
          let afterConsequencePos := castU16 c5.currentInstructions.length
          let c6 := c5.patch jumpNotTruthyPos (.JumpNotTruthy afterConsequencePos)
          match compileBlockStatement fuel alternative c6 with
          | .error e => .error e
          | .ok c7 =>
            let c8 :=
              if c7.currentInstructions.getLast? = some .Pop then
                { c7 with scopes := (c7.scopes.set c7.scopeIndex c7.currentInstructions.dropLast) }
              else c7
            let afterAlternativePos := castU16 c8.currentInstructions.length
            .ok (c8.patch jumpPos (.Jump afterAlternativePos))
    | .functionLiteral _parameters body =>
      -- `compile_function_literal`: parameters are ignored at this stage of
      -- the source; `Object::CompiledFunction` is built from the scope's
      -- instruction list (the locals/arguments counts are not populated,
      -- embedded as 0).
      match compileBlockStatement fuel body c.enterScope with
      | .error e => .error e
      | .ok c1 =>
        let c2 :=
          if c1.currentInstructions.getLast? = some .Pop then
            { c1 with scopes := (c1.scopes.set c1.scopeIndex (c1.currentInstructions.dropLast ++ [.ReturnValue])) }
          else c1
        let (instructions, c3) := c2.leaveScope
        let (constantIdx, c4) := c3.addConstant (.compiledFunction instructions 0 0)
        .ok (c4.emit (.Constant (castU16 constantIdx))).2
    | .functionCall function _arguments =>
      -- The source emits `Instruction::Call` with no operand and does not
      -- compile the arguments at this stage; embedded as `Call 0`.
      match compileExpression fuel function c with
      | .error e => .error e
      | .ok c1 => .ok (c1.emit (.Call 0)).2
    | .indexExpr left index =>
      match compileExpression fuel left c with
      | .error e => .error e
      | .ok c1 =>
        match compileExpression fuel index c1 with
        | .error e => .error e
        | .ok c2 => .ok (c2.emit .Index).2

/-- The element loop of array-literal compilation. -/
def compileExpressionList : Nat → List Expression → Compiler → Except CompileErr Compiler
  | 0, _, _ => .error .outOfFuel
  | _ + 1, [], c => .ok c
  | fuel + 1, e :: es, c =>
    match compileExpression fuel e c with
    | .error er => .error er
    | .ok c1 => compileExpressionList fuel es c1

/-- The pair loop of hash-literal compilation (key then value, source
order). -/
def compileHashPairs : Nat → List HashPair → Compiler → Except CompileErr Compiler
  | 0, _, _ => .error .outOfFuel
  | _ + 1, [], c => .ok c
  | fuel + 1, p :: ps, c =>
    match compileExpression fuel p.key c with
    | .error e => .error e
    | .ok c1 =>
      match compileExpression fuel p.value c1 with
      | .error e => .error e
      | .ok c2 => compileHashPairs fuel ps c2

/-- `Compiler::compile_block_statement`. -/
def compileBlockStatement : Nat → BlockStatement → Compiler → Except CompileErr Compiler
  | 0, _, _ => .error .outOfFuel
  | fuel + 1, block, c =>
    match block.statements with
    | [] => .ok (((c.emit .Null).2.emit .Pop)).2
    | stmts =>
      match compileStatementList fuel stmts c with
      | .error e => .error e
      | .ok c1 =>
        match stmts.getLast? with
        | some (.letStmt _ _) => .ok (((c1.emit .Null).2.emit .Pop)).2
        | _ => .ok c1

/-- The statement loop of `compile_block_statement` (also used for the
program's statements in `compile`). -/
def compileStatementList : Nat → List Statement → Compiler → Except CompileErr Compiler
  | 0, _, _ => .error .outOfFuel
  | _ + 1, [], c => .ok c
  | fuel + 1, s :: ss, c =>
    match compileStatement fuel s c with
    | .error e => .error e
    | .ok c1 => compileStatementList fuel ss c1

end

/-- `Compiler::compile`: reset the scope stack, compile the statements,
then pop the single remaining scope as the program's instructions. -/
def Compiler.compile (fuel : Nat) (c : Compiler) (program : Program) :
    Except CompileErr (Bytecode × Compiler) :=
  let c1 := { c with scopes := [[]], scopeIndex := 0 }
  match compileStatementList fuel program.statements c1 with
  | .error e => .error e
  | .ok c2 =>
    match c2.scopes.getLast? with
    | none => .error .crash  -- `expect("Invalid number of scopes!")`
    | some instructions =>
      .ok ({ instructions := instructions, constants := c2.constants },
        { c2 with scopes := c2.scopes.dropLast })

/-! ## Virtual machine (src/vm/mod.rs, src/vm/frame.rs, src/vm/error.rs) -/

/-- `STACK_SIZE`: the fixed size of the value stack allocated by `run`. -/
def STACK_SIZE : Nat := 2048

/-- `GLOBALS_SIZE`: the size of the globals table, `u16::MAX as usize`. -/
def GLOBALS_SIZE : Nat := 2 ^ 16 - 1

/-- `FRAME_STACK_SIZE`: the fixed size of the call-frame stack. -/
def FRAME_STACK_SIZE : Nat := 1024

/-- `vm::frame::Frame`. -/
structure Frame where
  instructions : List Instruction
  ip : Nat
  basePointer : Nat

/-- `Frame::new`. -/
def Frame.new (instructions : List Instruction) (basePointer : Nat) : Frame :=
  { instructions := instructions, ip := 0, basePointer := basePointer }

/-- `vm::Error`. -/
inductive VmErr where
  | StackOverflow
  | UnknownBinaryOperator (i : Instruction) (left right : DataType)
  | UnsupportedNegationType (dt : DataType)
  | UnhashableKey (dt : DataType)
  | IndexOperatorNotSupported (left index : DataType)
  | NotCallable (dt : DataType)
  | NotAFunction (dt : DataType)
  | WrongNumberOfArguments (want got : Nat)
  | BuiltinFunction (e : ExecutionError)
  deriving DecidableEq, Repr

/-- How a VM step can abort: a `vm::Error`, or a panic of the host
(out-of-bounds indexing, `expect` on an invalid frame, arithmetic that
panics). -/
inductive VmStop where
  | err (e : VmErr)
  | crash
  deriving DecidableEq, Repr

/-- `VirtualMachine`: vectors become length-tracked functions so that all
reads and writes can check the bounds the Rust indexing would enforce by
panicking. -/
structure VirtualMachine where
  stack : Nat → Object
  stackLen : Nat
  sp : Nat
  globals : Nat → Object
  globalsLen : Nat
  frames : Nat → Option Frame
  framesLen : Nat
  frameIndex : Nat

/-- Pointwise update of a function-backed vector. -/
def updFn {α : Type} (f : Nat → α) (i : Nat) (v : α) : Nat → α :=
  fun j => if j = i then v else f j

/-- `VirtualMachine::new`: an empty value stack (`vec![]`), a globals table
of `GLOBALS_SIZE` nulls and a frame stack of `FRAME_STACK_SIZE` empty
slots. -/
def VirtualMachine.create : VirtualMachine :=
  { stack := fun _ => .null
    stackLen := 0
    sp := 0
    globals := fun _ => .null
    globalsLen := GLOBALS_SIZE
    frames := fun _ => none
    framesLen := FRAME_STACK_SIZE
    frameIndex := 0 }

/-- `VirtualMachine::push`: `StackOverflow` when the stack is full,
otherwise write at `sp` and increment it. -/
def VirtualMachine.push (vm : VirtualMachine) (obj : Object) :
    Except VmStop VirtualMachine :=
  if vm.sp ≥ vm.stackLen then .error (.err .StackOverflow)
  else .ok { vm with stack := updFn vm.stack vm.sp obj, sp := vm.sp + 1 }

/-- `VirtualMachine::pop`: decrement `sp` and read the old top (panics on
an empty stack via index underflow). -/
def VirtualMachine.pop (vm : VirtualMachine) :
    Except VmStop (Object × VirtualMachine) :=
  if vm.sp = 0 then .error .crash
  else .ok (vm.stack (vm.sp - 1), { vm with sp := vm.sp - 1 })

/-- `VirtualMachine::current_frame` (panics when the frame index is zero,
out of bounds, or the slot is empty). -/
def VirtualMachine.currentFrame (vm : VirtualMachine) : Except VmStop Frame :=
  if vm.frameIndex = 0 then .error .crash
  else if vm.frameIndex - 1 ≥ vm.framesLen then .error .crash
  else
    match vm.frames (vm.frameIndex - 1) with
    | none => .error .crash
    | some f => .ok f

/-- `VirtualMachine::push_frame`: write the frame at `frame_index` and
increment it.  There is no capacity check: when `frame_index` has reached
`framesLen`, the write `self.frames[self.frame_index] = ...` indexes out of
bounds and panics. -/
def VirtualMachine.pushFrame (vm : VirtualMachine) (f : Frame) :
    Except VmStop VirtualMachine :=
  if vm.frameIndex < vm.framesLen then
    .ok { vm with
      frames := updFn vm.frames vm.frameIndex (some f)
      frameIndex := vm.frameIndex + 1 }
  else .error .crash

/-- `VirtualMachine::pop_frame`: decrement the frame index and take the
frame out of its slot. -/
def VirtualMachine.popFrame (vm : VirtualMachine) :
    Except VmStop (Frame × VirtualMachine) :=
  if vm.frameIndex = 0 then .error .crash
  else if vm.frameIndex - 1 ≥ vm.framesLen then .error .crash
  else
    match vm.frames (vm.frameIndex - 1) with
    | none => .error .crash
    | some f =>
      .ok (f, { vm with
        frames := updFn vm.frames (vm.frameIndex - 1) none
        frameIndex := vm.frameIndex - 1 })

/-- Increment the instruction pointer of the current frame (the
`self.current_frame_mut().ip += 1` at the bottom of the run loop). -/
def VirtualMachine.bumpIp (vm : VirtualMachine) : Except VmStop VirtualMachine :=
  match vm.currentFrame with
  | .error e => .error e
  | .ok f =>
    .ok { vm with frames := (updFn vm.frames (vm.frameIndex - 1) (some { f with ip := f.ip + 1 })) }

/-- Set the instruction pointer of the current frame (jumps). -/
def VirtualMachine.setIp (vm : VirtualMachine) (ip : Nat) :
    Except VmStop VirtualMachine :=
  match vm.currentFrame with
  | .error e => .error e
  | .ok f =>
    .ok { vm with frames := (updFn vm.frames (vm.frameIndex - 1) (some { f with ip := ip })) }

/-- The stack slice `stack[start..stop]` as a list. -/
def VirtualMachine.stackSlice (vm : VirtualMachine) (start stop : Nat) :
    List Object :=
  (List.range (stop - start)).map (fun k => vm.stack (start + k))

/-- `execute_binary_operation` after popping both operands. -/
def vmBinaryOp (inst : Instruction) (l r : Object) : Except VmStop Object :=
  match l, r with
  | .integer a, .integer b =>
    -- `execute_binary_integer_operation`
    match inst with
    | .Add => .ok (.integer (wrap64 (a + b)))
    | .Sub => .ok (.integer (wrap64 (a - b)))
    | .Mul => .ok (.integer (wrap64 (a * b)))
    | .Div => if b = 0 then .error .crash else .ok (.integer (wrap64 (Int.tdiv a b)))
    | _ => .error .crash  -- `unreachable!()`
  | .string a, .string b =>
    -- `execute_binary_string_operation`; note the source reports the
    -- failing operator as `Instruction::Add` regardless of `inst`.
    if inst ≠ .Add then
      .error (.err (.UnknownBinaryOperator .Add .String .String))
    else .ok (.string (a ++ b))
  | _, _ => .error (.err (.UnknownBinaryOperator inst l.dataType r.dataType))

/-- `execute_comparison` after popping both operands. -/
def vmComparison (inst : Instruction) (l r : Object) : Except VmStop Object :=
  match l, r with
  | .integer a, .integer b =>
    -- `execute_integer_comparison`
    match inst with
    | .Equal => .ok (.boolean (a = b))
    | .NotEqual => .ok (.boolean (a ≠ b))
    | .GreaterThan => .ok (.boolean (b < a))
    | _ => .error .crash  -- `unreachable!()`
  | _, _ =>
    match inst with
    | .Equal => .ok (.boolean (objectBEq l r))
    | .NotEqual => .ok (.boolean (!objectBEq l r))
    | _ => .error (.err (.UnknownBinaryOperator inst l.dataType r.dataType))

/-- `chunks(2)` over the popped key/value slice; an odd-length slice makes
the source read `chunk[1]` out of bounds. -/
def vmChunkPairs : List Object → Except VmStop (List (Object × Object))
  | [] => .ok []
  | [_] => .error .crash
  | k :: v :: rest =>
    match vmChunkPairs rest with
    | .error e => .error e
    | .ok ps => .ok ((k, v) :: ps)

/-- `VirtualMachine::build_hash_map` on the key/value slice: convert each
key (`UnhashableKey` on failure) and collect into a map, later insertions
overwriting earlier ones. -/
def vmBuildHashPairs : List (Object × Object) → List (HashKey × Object) →
    Except VmStop (List (HashKey × Object))
  | [], acc => .ok acc
  | (k, v) :: rest, acc =>
    match k.tryIntoHashKey with
    | .error dt => .error (.err (.UnhashableKey dt))
    | .ok key => vmBuildHashPairs rest (hashInsert acc key v)

/-- One dispatch of the `run` loop on instruction `inst` (including the
trailing `ip += 1` for every arm except `Call`, which `continue`s). -/
def vmStep (constants : List Object) (vm : VirtualMachine) (inst : Instruction) :
    Except VmStop VirtualMachine :=
  match inst with
  | .Constant idx =>
    if h : idx < constants.length then
      match vm.push (constants.get ⟨idx, h⟩) with
      | .error e => .error e
      | .ok vm1 => vm1.bumpIp
    else .error .crash
  | .Add | .Sub | .Mul | .Div =>
    match vm.pop with
    | .error e => .error e
    | .ok (right, vm1) =>
      match vm1.pop with
      | .error e => .error e
      | .ok (left, vm2) =>
        match vmBinaryOp inst left right with
        | .error e => .error e
        | .ok res =>
          match vm2.push res with
          | .error e => .error e
          | .ok vm3 => vm3.bumpIp
  | .Equal | .NotEqual | .GreaterThan =>
    match vm.pop with
    | .error e => .error e
    | .ok (right, vm1) =>
      match vm1.pop with
      | .error e => .error e
      | .ok (left, vm2) =>
        match vmComparison inst left right with
        | .error e => .error e
        | .ok res =>
          match vm2.push res with
          | .error e => .error e
          | .ok vm3 => vm3.bumpIp
  | .True =>
    match vm.push (.boolean true) with
    | .error e => .error e
    | .ok vm1 => vm1.bumpIp
  | .False =>
    match vm.push (.boolean false) with
    | .error e => .error e
    | .ok vm1 => vm1.bumpIp
  | .Null =>
    match vm.push .null with
    | .error e => .error e
    | .ok vm1 => vm1.bumpIp
  | .Pop =>
    match vm.pop with
    | .error e => .error e
    | .ok (_, vm1) => vm1.bumpIp
  | .Bang =>
    match vm.pop with
    | .error e => .error e
    | .ok (operand, vm1) =>
      match vm1.push (.boolean (!operand.isTruthy)) with
      | .error e => .error e
      | .ok vm2 => vm2.bumpIp
  | .Minus =>
    match vm.pop with
    | .error e => .error e
    | .ok (operand, vm1) =>
      match operand with
      | .integer v =>
        match vm1.push (.integer (wrap64 (-v))) with
        | .error e => .error e
        | .ok vm2 => vm2.bumpIp
      | o => .error (.err (.UnsupportedNegationType o.dataType))
  | .JumpNotTruthy pos =>
    match vm.pop with
    | .error e => .error e
    | .ok (condition, vm1) =>
      if !condition.isTruthy then
        if pos = 0 then .error .crash  -- `pos as usize - 1` underflows
        else
          match vm1.setIp (pos - 1) with
          | .error e => .error e
          | .ok vm2 => vm2.bumpIp
      else vm1.bumpIp
  | .Jump pos =>
    if pos = 0 then .error .crash
    else
      match vm.setIp (pos - 1) with
      | .error e => .error e
      | .ok vm1 => vm1.bumpIp
  | .GetGlobal idx =>
    if idx ≥ vm.globalsLen then .error .crash
    else
      match vm.push (vm.globals idx) with
      | .error e => .error e
      | .ok vm1 => vm1.bumpIp
  | .SetGlobal idx =>
    if idx ≥ vm.globalsLen then .error .crash
    else
      match vm.pop with
      | .error e => .error e
      | .ok (v, vm1) =>
        match ({ vm1 with globals := updFn vm1.globals idx v } : VirtualMachine).bumpIp with
        | .error e => .error e
        | .ok vm2 => .ok vm2
  | .Array len =>
    if len > vm.sp then .error .crash  -- `sp - length` underflows
    else
      let start := vm.sp - len
      let arr := vm.stackSlice start vm.sp
      let vm1 := { vm with sp := vm.sp - len }
      match vm1.push (.array arr) with
      | .error e => .error e
      | .ok vm2 => vm2.bumpIp
  | .Hash len =>
    if len > vm.sp then .error .crash
    else
      let start := vm.sp - len
      match vmChunkPairs (vm.stackSlice start vm.sp) with
      | .error e => .error e
      | .ok pairs =>
        match vmBuildHashPairs pairs [] with
        | .error e => .error e
        | .ok hm =>
          let vm1 := { vm with sp := vm.sp - len }
          match vm1.push (.hash hm) with
          | .error e => .error e
          | .ok vm2 => vm2.bumpIp
  | .Index =>
    match vm.pop with
    | .error e => .error e
    | .ok (index, vm1) =>
      match vm1.pop with
      | .error e => .error e
      | .ok (left, vm2) =>
        match left with
        | .array arr =>
          -- `execute_array_index`
          match index with
          | .integer idx =>
            if idx < 0 then
              match vm2.push .null with
              | .error e => .error e
              | .ok vm3 => vm3.bumpIp
            else if h : idx.toNat < arr.length then
              match vm2.push (arr.get ⟨idx.toNat, h⟩) with
              | .error e => .error e
              | .ok vm3 => vm3.bumpIp
            else
              match vm2.push .null with
              | .error e => .error e
              | .ok vm3 => vm3.bumpIp
          | o => .error (.err (.IndexOperatorNotSupported .Array o.dataType))
        | .hash pairs =>
          -- `execute_hash_index`
          match index.tryIntoHashKey with
          | .error dt => .error (.err (.UnhashableKey dt))
          | .ok key =>
            match vm2.push ((hashGet pairs key).getD .null) with
            | .error e => .error e
            | .ok vm3 => vm3.bumpIp
        | o => .error (.err (.IndexOperatorNotSupported o.dataType index.dataType))
  | .Call numArgs =>
    -- `execute_call`; the loop `continue`s, so `ip` is only bumped on the
    -- builtin path (inside `execute_call` itself).
    if vm.sp < numArgs + 1 then .error .crash  -- `sp - num_args - 1` underflows
    else
      match vm.stack (vm.sp - numArgs - 1) with
      | .compiledFunction instructions numLocals numArguments =>
        if numArgs ≠ numArguments then
          .error (.err (.WrongNumberOfArguments numArguments numArgs))
        else
          let frame := Frame.new instructions (vm.sp - numArgs)
          let vm1 := { vm with sp := frame.basePointer + numLocals }
          vm1.pushFrame frame
      | .builtin f =>
        let args := vm.stackSlice (vm.sp - numArgs) vm.sp
        match f.execute args with
        | .error e => .error (.err (.BuiltinFunction e))
        | .ok result =>
          let vm1 := { vm with sp := vm.sp - numArgs - 1 }
          match vm1.push result with
          | .error e => .error e
          | .ok vm2 => vm2.bumpIp
      | o => .error (.err (.NotAFunction o.dataType))
  | .ReturnValue =>
    match vm.pop with
    | .error e => .error e
    | .ok (returnValue, vm1) =>
      match vm1.popFrame with
      | .error e => .error e
      | .ok (frame, vm2) =>
        -- `sp = frame.base_pointer - 1`, removing the arguments and the
        -- function object; underflow at base pointer 0 panics.
        if frame.basePointer = 0 then .error .crash
        else
          let vm3 := { vm2 with sp := frame.basePointer - 1 }
          match vm3.push returnValue with
          | .error e => .error e
          | .ok vm4 => vm4.bumpIp
  | .SetLocal idx =>
    match vm.currentFrame with
    | .error e => .error e
    | .ok frame =>
      let pos := frame.basePointer + idx
      match vm.pop with
      | .error e => .error e
      | .ok (v, vm1) =>
        if pos ≥ vm1.stackLen then .error .crash
        else ({ vm1 with stack := updFn vm1.stack pos v } : VirtualMachine).bumpIp
  | .GetLocal idx =>
    match vm.currentFrame with
    | .error e => .error e
    | .ok frame =>
      let pos := frame.basePointer + idx
      if pos ≥ vm.stackLen then .error .crash
      else
        match vm.push (vm.stack pos) with
        | .error e => .error e
        | .ok vm1 => vm1.bumpIp
  | .GetBuiltin f =>
    match vm.push (.builtin f) with
    | .error e => .error e
    | .ok vm1 => vm1.bumpIp
  | .GetFree _ | .Closure _ _ | .CurrentClosure =>
    -- these opcodes have no arm in the `run` dispatch of src/vm/mod.rs
    .error .crash

/-- Outcome of running the VM loop. -/
inductive VmOutcome where
  | ok (vm : VirtualMachine)
  | err (e : VmErr)
  | crash
  | outOfFuel

/-- The `while` loop of `VirtualMachine::run`: stop when the current
frame's instruction pointer runs past its instruction list, otherwise
dispatch one instruction. -/
def vmLoop : Nat → List Object → VirtualMachine → VmOutcome
  | 0, _, _ => .outOfFuel
  | fuel + 1, constants, vm =>
    match vm.currentFrame with
    | .error (.err e) => .err e
    | .error .crash => .crash
    | .ok frame =>
      if h : frame.ip < frame.instructions.length then
        match vmStep constants vm (frame.instructions.get ⟨frame.ip, h⟩) with
        | .error (.err e) => .err e
        | .error .crash => .crash
        | .ok vm1 => vmLoop fuel constants vm1
      else .ok vm

/-- The reinitialization at the top of `VirtualMachine::run`: a fresh value
stack of `STACK_SIZE` nulls, a fresh frame stack of `FRAME_STACK_SIZE`
slots with frame 0 holding the program's instructions at base pointer 0;
the globals persist. -/
def VirtualMachine.runInit (vm : VirtualMachine) (bc : Bytecode) : VirtualMachine :=
  { vm with
    stack := fun _ => .null
    stackLen := STACK_SIZE
    sp := 0
    frames := updFn (fun _ => none) 0 (some (Frame.new bc.instructions 0))
    framesLen := FRAME_STACK_SIZE
    frameIndex := 1 }

/-- `VirtualMachine::run`: reinitialize, then execute the loop. -/
def VirtualMachine.run (fuel : Nat) (vm : VirtualMachine) (bc : Bytecode) :
    VmOutcome :=
  vmLoop fuel bc.constants (vm.runInit bc)

/-! ## Helper definitions used by the claim statements -/

/-- Parse an input and evaluate the program on a fresh evaluator, keeping
only the resulting value (`None` when parsing failed). -/
def evaluateSource (fuel : Nat) (input : List Nat) : Option (EvalRes Object) :=
  match parse input with
  | .ok p => some ((Evaluator.create.evaluate fuel p).map (fun r => r.1))
  | _ => none

/-- Parse two inputs and evaluate them in order on the *same* evaluator
(the REPL contract: bindings of the first line persist into the second).
The result pairs the first value with the outcome of the second program. -/
def evaluateTwoSources (fuel : Nat) (in1 in2 : List Nat) :
    Option (EvalRes (Object × EvalRes Object)) :=
  match parse in1, parse in2 with
  | .ok p1, .ok p2 =>
    some ((Evaluator.create.evaluate fuel p1).map
      (fun r => (r.1, (r.2.evaluate fuel p2).map (fun r2 => r2.1))))
  | _, _ => none

/-- The value on top of the stack after a successful run. -/
def VmOutcome.topValue : VmOutcome → Option Object
  | .ok vm => if vm.sp = 0 then none else some (vm.stack (vm.sp - 1))
  | _ => none

/-- The `Object` form of a hash key (inverse of `tryIntoHashKey`). -/
def HashKey.toObject : HashKey → Object
  | .string s => .string s
  | .integer i => .integer i
  | .boolean b => .boolean b

/-- Specification-side definition for duplicate-key hash construction: the
value of the *last* (rightmost) pair whose key is `k`. -/
def lastPairValue (ps : List (HashKey × Object)) (k : HashKey) : Option Object :=
  (ps.reverse.find? (fun p => p.1 = k)).map (fun p => p.2)

/-- The insertion fold shared (after key conversion) by
`Evaluator::evaluate_hash_literal` and `VirtualMachine::build_hash_map`:
pairs are inserted left to right into an accumulator. -/
def hashInsertFold (ps : List (HashKey × Object)) (acc : List (HashKey × Object)) :
    List (HashKey × Object) :=
  ps.foldl (fun m p => hashInsert m p.1 p.2) acc

/-- The body of the recursive function of the frame-overflow program:
`GetGlobal 0; Call 0` (the compiled form of `f()` inside
`let f = fn() { f() };`). -/
def recursionBody : List Instruction := [.GetGlobal 0, .Call 0]

/-- The function object of the frame-overflow program. -/
def recursionFn : Object := .compiledFunction recursionBody 0 0

/-- The main instructions of the frame-overflow program: bind the function
to global 0 and call it. -/
def recursionMain : List Instruction :=
  [.Constant 0, .SetGlobal 0, .GetGlobal 0, .Call 0]

/-- Bytecode of an unboundedly recursive program (`let f = fn() { f() };
f();`): each nested call pushes one value and one frame, so the frame
stack fills long before the value stack. -/
def recursionBytecode : Bytecode :=
  { instructions := recursionMain, constants := [recursionFn] }

/-- The machine state of the frame-overflow program after `k ≥ 1` calls
(the main frame plus `k` frames of the recursive function are live; frame
`i` has base pointer `i`, and the function object sits in stack slots
`0..k`). -/
def recursionState (k : Nat) : VirtualMachine :=
  { stack := fun i => if i < k then recursionFn else .null
    stackLen := STACK_SIZE
    sp := k
    globals := updFn (fun _ => Object.null) 0 recursionFn
    globalsLen := GLOBALS_SIZE
    frames := fun i =>
      if i = 0 then some { instructions := recursionMain, ip := 3, basePointer := 0 }
      else if i < k then some { instructions := recursionBody, ip := 1, basePointer := i }
      else if i = k then some { instructions := recursionBody, ip := 0, basePointer := k }
      else none
    framesLen := FRAME_STACK_SIZE
    frameIndex := k + 1 }

/-- The machine of the frame-overflow program after the `GetGlobal 0` of
the `k`-th recursive call: the function object has been pushed (`sp = k+1`)
and the current frame sits at `ip = 1`, about to execute `Call 0`. -/
def recursionMidState (k : Nat) : VirtualMachine :=
  { stack := fun i => if i < k + 1 then recursionFn else .null
    stackLen := STACK_SIZE
    sp := k + 1
    globals := updFn (fun _ => Object.null) 0 recursionFn
    globalsLen := GLOBALS_SIZE
    frames := fun i =>
      if i = 0 then some { instructions := recursionMain, ip := 3, basePointer := 0 }
      else if i < k + 1 then some { instructions := recursionBody, ip := 1, basePointer := i }
      else none
    framesLen := FRAME_STACK_SIZE
    frameIndex := k + 1 }

/-- The machine after the `Constant 0` of the frame-overflow program. -/
def prologueA : VirtualMachine :=
  { stack := updFn (fun _ => Object.null) 0 recursionFn
    stackLen := STACK_SIZE
    sp := 1
    globals := fun _ => Object.null
    globalsLen := GLOBALS_SIZE
    frames := updFn (updFn (fun _ => none) 0 (some ⟨recursionMain, 0, 0⟩)) 0
      (some ⟨recursionMain, 1, 0⟩)
    framesLen := FRAME_STACK_SIZE
    frameIndex := 1 }

/-- The machine after `SetGlobal 0`. -/
def prologueB : VirtualMachine :=
  { prologueA with
    sp := 0
    globals := updFn (fun _ => Object.null) 0 recursionFn
    frames := updFn prologueA.frames 0 (some ⟨recursionMain, 2, 0⟩) }

/-- The machine after the `GetGlobal 0` of the main frame. -/
def prologueC : VirtualMachine :=
  { prologueB with
    stack := updFn prologueB.stack 0 recursionFn
    sp := 1
    frames := updFn prologueB.frames 0 (some ⟨recursionMain, 3, 0⟩) }

/-- The machine after the `Call 0` of the main frame: the first recursive
frame is live. -/
def prologueD : VirtualMachine :=
  { prologueC with
    sp := 1
    frames := updFn prologueC.frames 1 (some ⟨recursionBody, 0, 1⟩)
    frameIndex := 2 }

/-- A machine whose value stack is full (`sp = stackLen = STACK_SIZE`). -/
def fullStackVm : VirtualMachine :=
  { stack := fun _ => .null
    stackLen := STACK_SIZE
    sp := STACK_SIZE
    globals := fun _ => .null
    globalsLen := GLOBALS_SIZE
    frames := updFn (fun _ => none) 0 (some ⟨recursionMain, 0, STACK_SIZE⟩)
    framesLen := FRAME_STACK_SIZE
    frameIndex := 1 }

/-- A concrete machine about to execute `ReturnValue`: frame 1 (base
pointer 1) is current, the callee object sits at stack slot 0 and the
return value `7` on top. -/
def returnValueDemoVm : VirtualMachine :=
  { stack := updFn (updFn (fun _ => .null) 0 recursionFn) 1 (.integer 7)
    stackLen := STACK_SIZE
    sp := 2
    globals := fun _ => .null
    globalsLen := GLOBALS_SIZE
    frames := updFn (updFn (fun _ => none) 0 (some ⟨[.Call 0], 0, 0⟩)) 1
      (some ⟨[.ReturnValue], 0, 1⟩)
    framesLen := FRAME_STACK_SIZE
    frameIndex := 2 }

/-- A concrete machine about to execute `Call 0` on the compiled function
at the top of the stack. -/
def callDemoVm : VirtualMachine :=
  { stack := updFn (fun _ => .null) 0 (.compiledFunction [.ReturnValue] 0 0)
    stackLen := STACK_SIZE
    sp := 1
    globals := fun _ => .null
    globalsLen := GLOBALS_SIZE
    frames := updFn (fun _ => none) 0 (some ⟨[.Call 0], 0, 0⟩)
    framesLen := FRAME_STACK_SIZE
    frameIndex := 1 }

/-! ## General lemmas about the hash-map model -/

/-- Unfolding lookup over a cons cell. -/
theorem hashGet_cons (k1 : HashKey) (v1 : Object) (rest : List (HashKey × Object))
    (k2 : HashKey) :
    hashGet ((k1, v1) :: rest) k2 = if k1 = k2 then some v1 else hashGet rest k2 := by
  by_cases h : k1 = k2 <;> simp [hashGet, List.find?, h]

/-- Lookup in a one-step-inserted map: the inserted key reads back the new
value, every other key is unaffected. -/
theorem hashGet_hashInsert (l : List (HashKey × Object)) (k : HashKey)
    (v : Object) (k2 : HashKey) :
    hashGet (hashInsert l k v) k2 = if k2 = k then some v else hashGet l k2 := by
  induction l with
  | nil =>
    simp only [hashInsert, hashGet_cons]
    by_cases h : k2 = k
    · rw [if_pos h, if_pos h.symm]
    · rw [if_neg h, if_neg (fun hh => h (Eq.symm hh))]
  | cons p rest ih =>
    obtain ⟨k1, v1⟩ := p
    simp only [hashInsert]
    by_cases h1 : k1 = k
    · subst h1
      rw [if_pos rfl, hashGet_cons]
      by_cases h2 : k2 = k1
      · rw [if_pos (Eq.symm h2), if_pos h2]
      · rw [if_neg (fun hh => h2 (Eq.symm hh)), if_neg h2, hashGet_cons,
          if_neg (fun hh => h2 (Eq.symm hh))]
    · rw [if_neg h1, hashGet_cons, ih, hashGet_cons]
      by_cases h2 : k1 = k2
      · subst h2
        rw [if_pos rfl, if_neg (fun hh => h1 hh), if_pos rfl]
      · rw [if_neg h2, if_neg h2]

/-- Lookup after the left-to-right insertion fold: the last pair with the
key wins; keys absent from the pair list fall through to the
accumulator. -/
theorem hashGet_hashInsertFold (ps : List (HashKey × Object))
    (acc : List (HashKey × Object)) (k : HashKey) :
    hashGet (hashInsertFold ps acc) k =
      ((lastPairValue ps k).rec (hashGet acc k) (fun v => some v)) := by
  induction ps generalizing acc with
  | nil => simp [hashInsertFold, lastPairValue]
  | cons p rest ih =>
    obtain ⟨k1, v1⟩ := p
    have hfold : hashInsertFold ((k1, v1) :: rest) acc =
        hashInsertFold rest (hashInsert acc k1 v1) := rfl
    rw [hfold, ih]
    have hlast : lastPairValue ((k1, v1) :: rest) k =
        ((lastPairValue rest k).rec
          ((List.find? (fun p => p.1 = k) [(k1, v1)]).map (fun p => p.2))
          (fun v => some v)) := by
      simp only [lastPairValue, List.reverse_cons, List.find?_append]
      cases h : List.find? (fun p => p.1 = k) rest.reverse <;>
        simp [Option.orElse, h]
    rw [hlast]
    cases h : lastPairValue rest k with
    | some v => simp
    | none =>
      simp only []
      rw [hashGet_hashInsert]
      by_cases hk : k = k1
      · subst hk
        simp [List.find?]
      · simp [List.find?, Ne.symm hk, hk, hashGet]

/-- `build_hash_map`'s pair loop is exactly the insertion fold once every
key converts. -/
theorem vmBuildHashPairs_eq_fold (ps : List (HashKey × Object))
    (acc : List (HashKey × Object)) :
    vmBuildHashPairs (ps.map (fun p => (p.1.toObject, p.2))) acc =
      .ok (hashInsertFold ps acc) := by
  induction ps generalizing acc with
  | nil => simp [vmBuildHashPairs, hashInsertFold]
  | cons p rest ih =>
    obtain ⟨k, v⟩ := p
    have hconv : (HashKey.toObject k).tryIntoHashKey = .ok k := by
      cases k <;> rfl
    simp only [List.map, vmBuildHashPairs, hconv]
    exact ih (hashInsert acc k v)

/-! ## Claim theorems -/

/-- C4: the lexer is *not* total: on the two-byte UTF-8 input `"é"`
(bytes `C3 A9`), byte `C3` passes `is_letter` (it casts to the Latin-1
letter `Ã`), byte `A9` does not, so `read_identifier` slices the input
mid-code-point and `std::str::from_utf8(...).unwrap()` panics.  This
theorem evaluates the embedded lexer at that failing input. -/
theorem c4_lexer_crashes_on_multibyte_letter :
    strBytes ("é") = [0xC3, 0xA9] ∧
    isLetter 0xC3 = true ∧ isLetter 0xA9 = false ∧
    tokenize (strBytes ("é")) = .crash :=
  ⟨rfl, rfl, rfl, rfl⟩

/-- C2: hash literals are rejected by the parser: `parse_prefix` has no arm
for `Token::Lsquigly`, so the program
`{"one": 1, "two": 2, true: 3, 4: "four"}["one"]` lexes fine but parsing
fails with `NotAnExpression(Some(Lsquigly))` instead of producing a
`HashLiteral` expression. -/
theorem c2_parser_rejects_hash_literal :
    (∃ ts, tokenize (strBytes
      ("\x7b\"one\": 1, \"two\": 2, true: 3, 4: \"four\"\x7d[\"one\"]")) = .ok ts) ∧
    parse (strBytes
      ("\x7b\"one\": 1, \"two\": 2, true: 3, 4: \"four\"\x7d[\"one\"]")) =
      .err (.NotAnExpression (some .Lsquigly)) :=
  ⟨⟨_, rfl⟩, rfl⟩

/-- C1: closure correctness fails across top-level calls.  The first
program binds `q` to a closure whose captured environment chain is
`E2 (empty) → E1 (a = 5) → global`; the mark phase walks only value slots,
never outer references, so `E1` is reachable only through `E2.outer` and is
swept.  The second program `q()` then follows the outer chain into the
dropped `E1` and panics ("Trying to access a dropped environment") instead
of resolving `a` to `5`. -/
theorem c1_closure_env_dropped_across_evaluates :
    evaluateTwoSources 100
      (strBytes ("let q = fn(a) \x7b fn() \x7b fn() \x7b a \x7d \x7d \x7d(5)();"))
      (strBytes ("q()")) =
    some (.ok (.null, .error .crash)) := rfl

/-- C9 (counterexample): the globals table of a fresh VM has 65 535 slots
(`u16::MAX as usize`), not 65 536. -/
theorem c9_globals_not_65536 :
    VirtualMachine.create.globalsLen ≠ 65536 ∧
    VirtualMachine.create.globalsLen = 65535 :=
  ⟨by decide, rfl⟩

/-- C9 (amended): a fresh `VirtualMachine` has a frame stack of
`FRAME_STACK_SIZE = 1024` slots and a globals table of
`GLOBALS_SIZE = u16::MAX = 65535` slots; the 2048-slot value stack
(`STACK_SIZE`) is (re)allocated by every `run` call. -/
theorem c9_vm_sizing :
    STACK_SIZE = 2048 ∧ FRAME_STACK_SIZE = 1024 ∧ GLOBALS_SIZE = 65535 ∧
    VirtualMachine.create.globalsLen = 65535 ∧
    VirtualMachine.create.framesLen = 1024 ∧
    (∀ (vm : VirtualMachine) (bc : Bytecode),
      (vm.runInit bc).stackLen = 2048 ∧ (vm.runInit bc).framesLen = 1024 ∧
      (vm.runInit bc).globalsLen = vm.globalsLen) :=
  ⟨rfl, rfl, rfl, rfl, rfl, fun _ _ => ⟨rfl, rfl, rfl⟩⟩

/-- C7: `rest` returns `Null` on the empty array and otherwise a new array
of the elements without the first, in order; `push` returns a new array of
the old elements followed by the new one; a non-array first argument is a
type-mismatch error carrying the argument's type name.  The embedding is
by-value (as the source's `Rc`-cloned vectors are observationally), so the
argument array itself is returned inside fresh structures and never
modified. -/
theorem c7_rest_push_builtins :
    executeRest [Object.array []] = .ok .null ∧
    (∀ (x : Object) (xs : List Object),
      executeRest [Object.array (x :: xs)] = .ok (.array xs)) ∧
    (∀ (xs : List Object) (x : Object),
      executePush [Object.array xs, x] = .ok (.array (xs ++ [x]))) ∧
    (∀ o : Object, o.dataType ≠ .Array →
      executeRest [o] = .error (.typeMismatch o.dataType.display)) ∧
    (∀ (o x : Object), o.dataType ≠ .Array →
      executePush [o, x] = .error (.typeMismatch o.dataType.display)) := by
  refine ⟨rfl, fun x xs => rfl, fun xs x => rfl, fun o h => ?_, fun o x h => ?_⟩
  · cases o <;> first | rfl | exact absurd rfl h
  · cases o <;> first | rfl | exact absurd rfl h

/-- C7 witness: the theorem applied at concrete inputs, with the
type-mismatch hypotheses discharged at `Integer(1)`. -/
theorem c7_rest_push_builtins_witness :
    executeRest [Object.array [.integer 1, .integer 2]] = .ok (.array [.integer 2]) ∧
    executePush [Object.array [.integer 1], .integer 9] =
      .ok (.array [.integer 1, .integer 9]) ∧
    executeRest [Object.integer 1] = .error (.typeMismatch ("INTEGER")) ∧
    executePush [Object.integer 1, .null] = .error (.typeMismatch ("INTEGER")) :=
  ⟨c7_rest_push_builtins.2.1 (.integer 1) [.integer 2],
   c7_rest_push_builtins.2.2.1 [.integer 1] (.integer 9),
   c7_rest_push_builtins.2.2.2.1 (.integer 1) (by decide),
   c7_rest_push_builtins.2.2.2.2 (.integer 1) .null (by decide)⟩

/-- The bytecode of `{1: 10, 1: 20}` (built directly; the parser of this
snapshot cannot produce hash literals): push the four constants and build
a hash from the top four stack slots. -/
def duplicateKeyHashBytecode : Bytecode :=
  { instructions := [.Constant 0, .Constant 1, .Constant 2, .Constant 3, .Hash 4],
    constants := [.integer 1, .integer 10, .integer 1, .integer 20] }

/-- C10: duplicate hash keys are not an error and the later pair wins.
Generally: the insertion fold that both backends use maps every key to the
value of the *last* pair carrying it (`lastPairValue`, the spec-side
reading), and the VM's `build_hash_map` pair loop is exactly that fold.
Concretely: the evaluator on the hash literal `{1: 10, 1: 20}` and the VM
on the corresponding bytecode both succeed and produce a hash whose lookup
at key `1` yields `20`. -/
theorem c10_duplicate_hash_keys_later_wins :
    (∀ (ps : List (HashKey × Object)) (k : HashKey),
      hashGet (hashInsertFold ps []) k = lastPairValue ps k) ∧
    (∀ (ps : List (HashKey × Object)) (acc : List (HashKey × Object)),
      vmBuildHashPairs (ps.map (fun p => (p.1.toObject, p.2))) acc =
        .ok (hashInsertFold ps acc)) ∧
    evalExpression 10
      (.hashLiteral [.mk (.integerLiteral 1) (.integerLiteral 10),
                     .mk (.integerLiteral 1) (.integerLiteral 20)])
      0 [some { store := [], outer := none }] =
      .ok (.hash [(.integer 1, .integer 20)], [some { store := [], outer := none }]) ∧
    (VirtualMachine.create.run 100 duplicateKeyHashBytecode).topValue =
      some (.hash [(.integer 1, .integer 20)]) := by
  refine ⟨fun ps k => ?_, vmBuildHashPairs_eq_fold, rfl, rfl⟩
  rw [hashGet_hashInsertFold]
  cases lastPairValue ps k <;> rfl

/-- C6: less-than lowering.  Compiling `a < b` produces exactly the
compiler state (instruction buffer *and* constant pool) that compiling
`b > a` produces: the special case in `compile_infix_operator` compiles
`b`, then `a`, then emits a single `GreaterThan`, which is precisely the
generic path for `b > a`.  The equality holds for all operand expressions,
all starting compiler states and all fuel, and lifts to whole-program
compilation of the corresponding expression statements.  (The `Instruction`
type has no less-than opcode at all.) -/
theorem c6_less_than_lowering :
    (∀ (fuel : Nat) (a b : Expression) (c : Compiler),
      compileExpression fuel (.infixOperator .LessThan a b) c =
        compileExpression fuel (.infixOperator .GreaterThan b a) c) ∧
    (∀ (fuel : Nat) (a b : Expression) (c : Compiler),
      Compiler.compile (fuel + 2) c ⟨[.exprStmt (.infixOperator .LessThan a b)]⟩ =
        Compiler.compile (fuel + 2) c ⟨[.exprStmt (.infixOperator .GreaterThan b a)]⟩) := by
  have hexpr : ∀ (fuel : Nat) (a b : Expression) (c : Compiler),
      compileExpression fuel (.infixOperator .LessThan a b) c =
        compileExpression fuel (.infixOperator .GreaterThan b a) c := by
    intro fuel a b c
    cases fuel with
    | zero => rfl
    | succ f => rfl
  refine ⟨hexpr, fun fuel a b c => ?_⟩
  have hstmt : ∀ c1 : Compiler,
      compileStatement (fuel + 1) (.exprStmt (.infixOperator .LessThan a b)) c1 =
        compileStatement (fuel + 1) (.exprStmt (.infixOperator .GreaterThan b a)) c1 := by
    intro c1
    simp only [compileStatement]
    rw [hexpr]
  unfold Compiler.compile
  simp only [compileStatementList]
  rw [hstmt]

/-- C3: nested return unwinding.  Concretely, the program
`if (10 > 1) { if (10 > 1) { return 10; } return 1; }` parses and
evaluates to `Integer(10)`.  Generally: (i) a statement that evaluates to a
`Return` ends its enclosing block immediately with that `Return` value
unchanged, whatever statements follow; (ii) a non-`Return` result threads
through to the rest of the block; (iii) a function call whose body block
evaluates to `Return v` yields the payload `v` (the unwrap at the
function-call boundary); (iv) a program statement that evaluates to
`Return v` ends `Evaluator::evaluate` with payload `v` (the unwrap at the
program boundary), whatever statements follow, modulo the final garbage
collection. -/
theorem c3_nested_return_unwinding :
    evaluateSource 100
      (strBytes ("if (10 > 1) \x7b if (10 > 1) \x7b return 10; \x7d return 1; \x7d")) =
      some (.ok (.integer 10)) ∧
    (∀ (fuel : Nat) (s : Statement) (rest : List Statement) (env : Nat)
        (arena arena2 : EnvArena) (v : Object),
      evalStatement fuel s env arena = .ok (.ret v, arena2) →
      evalStmtList (fuel + 1) (s :: rest) env arena = .ok (.ret v, arena2)) ∧
    (∀ (fuel : Nat) (s : Statement) (r0 : Statement) (rest : List Statement)
        (env : Nat) (arena arena2 : EnvArena) (r : Object),
      evalStatement fuel s env arena = .ok (r, arena2) →
      (∀ v, r ≠ .ret v) →
      evalStmtList (fuel + 1) (s :: r0 :: rest) env arena =
        evalStmtList fuel (r0 :: rest) env arena2) ∧
    (∀ (fuel : Nat) (fexpr : Expression) (argExprs : List Expression)
        (env : Nat) (arena arena1 arena2 arena4 arena5 : EnvArena)
        (args : List Object) (params : List Str) (body : BlockStatement)
        (fenv : Nat) (v : Object),
      evalExpressionList fuel argExprs env arena = .ok (args, arena1) →
      evalExpression fuel fexpr env arena1 = .ok (.function params body fenv, arena2) →
      bindParameters (envExtend arena2 fenv).2 (envExtend arena2 fenv).1
        params args 0 = .ok arena4 →
      evalBlock fuel body (envExtend arena2 fenv).1 arena4 = .ok (.ret v, arena5) →
      evalExpression (fuel + 1) (.functionCall fexpr argExprs) env arena =
        .ok (v, arena5)) ∧
    (∀ (fuel : Nat) (s : Statement) (rest : List Statement) (ev : Evaluator)
        (arena2 : EnvArena) (v : Object),
      evalStatement fuel s ev.environment ev.arena = .ok (.ret v, arena2) →
      Evaluator.evaluate (fuel + 1) ev ⟨s :: rest⟩ =
        (match collectGarbage (fuel + 1) { ev with arena := arena2 } with
         | .error e => .error e
         | .ok ev2 => .ok (v, ev2))) := by
  refine ⟨rfl, ?_, ?_, ?_, ?_⟩
  · intro fuel s rest env arena arena2 v h
    cases rest <;> simp only [evalStmtList] <;> rw [h]
  · intro fuel s r0 rest env arena arena2 r h hnr
    simp only [evalStmtList]
    rw [h]
    cases r <;> first
      | rfl
      | (rename_i o; exact absurd rfl (hnr o))
  · intro fuel fexpr argExprs env arena arena1 arena2 arena4 arena5 args params
      body fenv v hargs hf hbind hbody
    simp only [evalExpression]
    rw [hargs]
    dsimp only
    rw [hf]
    dsimp only
    rw [hbind]
    dsimp only
    rw [hbody]
  · intro fuel s rest ev arena2 v h
    have hp : evalProgramStmts (fuel + 1) (s :: rest) ev.environment ev.arena =
        .ok (v, arena2) := by
      cases rest <;> simp only [evalProgramStmts] <;> rw [h]
    simp only [Evaluator.evaluate]
    rw [hp]

set_option maxRecDepth 2000 in
/-- C3 witness: the general conjuncts applied at concrete inputs — a
block whose first statement is `return 10;` ends with `Return(10)`
unchanged, and calling `fn() { return 7; }` yields `7`. -/
theorem c3_nested_return_unwinding_witness :
    evalStmtList 6 [.returnStmt (.integerLiteral 10), .exprStmt (.integerLiteral 1)]
      0 [some { store := [], outer := none }] =
      .ok (.ret (.integer 10), [some { store := [], outer := none }]) ∧
    evalExpression 6
      (.functionCall (.functionLiteral []
        (.mk [.returnStmt (.integerLiteral 7)])) []) 0
      [some { store := [], outer := none }] =
      .ok (.integer 7,
        [some { store := [], outer := none },
         some { store := [], outer := some 0 }]) :=
  ⟨c3_nested_return_unwinding.2.1 5 (.returnStmt (.integerLiteral 10))
      [.exprStmt (.integerLiteral 1)] 0 [some { store := [], outer := none }]
      [some { store := [], outer := none }] (.integer 10) rfl,
   c3_nested_return_unwinding.2.2.2.1 5
      (.functionLiteral [] (.mk [.returnStmt (.integerLiteral 7)])) [] 0
      [some { store := [], outer := none }] [some { store := [], outer := none }]
      [some { store := [], outer := none }]
      [some { store := [], outer := none }, some { store := [], outer := some 0 }]
      [some { store := [], outer := none }, some { store := [], outer := some 0 }]
      [] [] (.mk [.returnStmt (.integerLiteral 7)]) 0 (.integer 7)
      rfl rfl rfl rfl⟩

/-! ## Step lemmas for the VM -/

/-- `push` succeeds below the stack limit. -/
theorem push_ok (vm : VirtualMachine) (obj : Object) (h : vm.sp < vm.stackLen) :
    vm.push obj = .ok { vm with stack := updFn vm.stack vm.sp obj, sp := vm.sp + 1 } := by
  unfold VirtualMachine.push
  rw [if_neg (Nat.not_le.mpr h)]

/-- `pop` on a nonempty stack returns the top. -/
theorem pop_ok (vm : VirtualMachine) (h : vm.sp ≠ 0) :
    vm.pop = .ok (vm.stack (vm.sp - 1), { vm with sp := vm.sp - 1 }) := by
  unfold VirtualMachine.pop
  rw [if_neg h]

/-- Decomposition of a successful `current_frame`. -/
theorem currentFrame_ok_elim (vm : VirtualMachine) (fr : Frame)
    (h : vm.currentFrame = .ok fr) :
    vm.frameIndex ≠ 0 ∧ vm.frameIndex - 1 < vm.framesLen ∧
      vm.frames (vm.frameIndex - 1) = some fr := by
  unfold VirtualMachine.currentFrame at h
  by_cases h0 : vm.frameIndex = 0
  · rw [if_pos h0] at h; cases h
  · rw [if_neg h0] at h
    by_cases h1 : vm.frameIndex - 1 ≥ vm.framesLen
    · rw [if_pos h1] at h; cases h
    · rw [if_neg h1] at h
      refine ⟨h0, Nat.not_le.mp h1, ?_⟩
      cases hf : vm.frames (vm.frameIndex - 1) with
      | none => rw [hf] at h; cases h
      | some f => rw [hf] at h; cases h; rfl

/-- Introduction of a successful `current_frame`. -/
theorem currentFrame_ok_intro (vm : VirtualMachine) (fr : Frame)
    (h0 : vm.frameIndex ≠ 0) (h1 : vm.frameIndex - 1 < vm.framesLen)
    (h2 : vm.frames (vm.frameIndex - 1) = some fr) :
    vm.currentFrame = .ok fr := by
  unfold VirtualMachine.currentFrame
  rw [if_neg h0, if_neg (Nat.not_le.mpr h1), h2]

/-- `pop_frame` succeeds on a live frame. -/
theorem popFrame_ok (vm : VirtualMachine) (fr : Frame)
    (h0 : vm.frameIndex ≠ 0) (h1 : vm.frameIndex - 1 < vm.framesLen)
    (h2 : vm.frames (vm.frameIndex - 1) = some fr) :
    vm.popFrame = .ok (fr, { vm with
      frames := updFn vm.frames (vm.frameIndex - 1) none
      frameIndex := vm.frameIndex - 1 }) := by
  unfold VirtualMachine.popFrame
  rw [if_neg h0, if_neg (by exact Nat.not_le.mpr h1), h2]

/-- `bumpIp` rewrites the current frame with its ip incremented. -/
theorem bumpIp_ok (vm : VirtualMachine) (fr : Frame)
    (h : vm.currentFrame = .ok fr) :
    vm.bumpIp = .ok { vm with
      frames := (updFn vm.frames (vm.frameIndex - 1) (some { fr with ip := fr.ip + 1 })) } := by
  unfold VirtualMachine.bumpIp
  rw [h]

/-! ## The frame-overflow run (C5) -/

/-- Componentwise extensionality for the VM state. -/
theorem vmExt (a b : VirtualMachine)
    (h1 : ∀ i, a.stack i = b.stack i) (h2 : a.stackLen = b.stackLen)
    (h3 : a.sp = b.sp) (h4 : ∀ i, a.globals i = b.globals i)
    (h5 : a.globalsLen = b.globalsLen) (h6 : ∀ i, a.frames i = b.frames i)
    (h7 : a.framesLen = b.framesLen) (h8 : a.frameIndex = b.frameIndex) :
    a = b := by
  cases a; cases b
  simp only [VirtualMachine.mk.injEq]
  exact ⟨funext h1, h2, h3, funext h4, h5, funext h6, h7, h8⟩

/-- One successful iteration of the run loop. -/
theorem vmLoop_unfold_step (fuel : Nat) (c : List Object)
    (vm vm2 : VirtualMachine) (fr : Frame)
    (hf : vm.currentFrame = .ok fr)
    (hlt : fr.ip < fr.instructions.length)
    (hstep : vmStep c vm (fr.instructions.get ⟨fr.ip, hlt⟩) = .ok vm2) :
    vmLoop (fuel + 1) c vm = vmLoop fuel c vm2 := by
  conv_lhs => rw [vmLoop]
  rw [hf]
  dsimp only
  rw [dif_pos hlt, hstep]

/-- An iteration of the run loop whose dispatch panics. -/
theorem vmLoop_crash_step (fuel : Nat) (c : List Object)
    (vm : VirtualMachine) (fr : Frame)
    (hf : vm.currentFrame = .ok fr)
    (hlt : fr.ip < fr.instructions.length)
    (hstep : vmStep c vm (fr.instructions.get ⟨fr.ip, hlt⟩) = .error .crash) :
    vmLoop (fuel + 1) c vm = .crash := by
  conv_lhs => rw [vmLoop]
  rw [hf]
  dsimp only
  rw [dif_pos hlt, hstep]

/-- The current frame of `recursionState k` (the `k`-th recursive call,
about to execute `GetGlobal 0`). -/
theorem recursionState_currentFrame (k : Nat) (h1 : 1 ≤ k) (h2 : k ≤ 1023) :
    (recursionState k).currentFrame =
      .ok { instructions := recursionBody, ip := 0, basePointer := k } := by
  apply currentFrame_ok_intro
  · show ¬(k + 1 = 0)
    omega
  · show k + 1 - 1 < FRAME_STACK_SIZE
    unfold FRAME_STACK_SIZE
    omega
  · show (recursionState k).frames (k + 1 - 1) = _
    unfold recursionState
    dsimp only
    rw [show k + 1 - 1 = k from rfl, if_neg (by omega : ¬k = 0),
      if_neg (by omega : ¬k < k), if_pos rfl]

/-- The current frame of `recursionMidState k` (about to execute
`Call 0`). -/
theorem recursionMid_currentFrame (k : Nat) (h1 : 1 ≤ k) (h2 : k ≤ 1023) :
    (recursionMidState k).currentFrame =
      .ok { instructions := recursionBody, ip := 1, basePointer := k } := by
  apply currentFrame_ok_intro
  · show ¬(k + 1 = 0)
    omega
  · show k + 1 - 1 < FRAME_STACK_SIZE
    unfold FRAME_STACK_SIZE
    omega
  · show (recursionMidState k).frames (k + 1 - 1) = _
    unfold recursionMidState
    dsimp only
    rw [show k + 1 - 1 = k from rfl, if_neg (by omega : ¬k = 0),
      if_pos (by omega : k < k + 1)]

/-- Executing the `GetGlobal 0` of the `k`-th recursive call pushes the
function object and advances the instruction pointer. -/
theorem recursionStep1 (k : Nat) (h1 : 1 ≤ k) (h2 : k ≤ 1023) :
    vmStep [recursionFn] (recursionState k) (.GetGlobal 0) =
      .ok (recursionMidState k) := by
  simp only [vmStep]
  rw [if_neg (Nat.not_le.mpr
    (show (0:Nat) < (recursionState k).globalsLen from by
      show (0:Nat) < GLOBALS_SIZE
      decide))]
  rw [push_ok (recursionState k) _
    (by show k < STACK_SIZE; unfold STACK_SIZE; omega)]
  dsimp only
  rw [bumpIp_ok _ { instructions := recursionBody, ip := 0, basePointer := k } ?hcf]
  case hcf =>
    apply currentFrame_ok_intro
    · show ¬(k + 1 = 0)
      omega
    · show k + 1 - 1 < FRAME_STACK_SIZE
      unfold FRAME_STACK_SIZE
      omega
    · show (recursionState k).frames (k + 1 - 1) = _
      unfold recursionState
      dsimp only
      rw [show k + 1 - 1 = k from rfl, if_neg (by omega : ¬k = 0),
        if_neg (by omega : ¬k < k), if_pos rfl]
  refine congrArg Except.ok (vmExt _ _ ?_ rfl rfl (fun _ => rfl) rfl ?_ rfl rfl)
  · intro i
    show updFn (recursionState k).stack k ((recursionState k).globals 0) i =
      (recursionMidState k).stack i
    unfold recursionState recursionMidState updFn
    dsimp only
    by_cases hik : i = k
    · rw [if_pos hik, if_pos (show i < k + 1 by omega), if_pos rfl]
    · rw [if_neg hik]
      by_cases hik2 : i < k
      · rw [if_pos hik2, if_pos (show i < k + 1 by omega)]
      · rw [if_neg hik2, if_neg (show ¬i < k + 1 by omega)]
  · intro i
    show updFn (recursionState k).frames (k + 1 - 1)
        (some { instructions := recursionBody, ip := 0 + 1, basePointer := k }) i =
      (recursionMidState k).frames i
    unfold recursionState recursionMidState updFn
    dsimp only
    rw [show k + 1 - 1 = k from rfl]
    by_cases hik : i = k
    · rw [if_pos hik, if_neg (by omega : ¬i = 0), if_pos (by omega : i < k + 1)]
      rw [hik]
    · rw [if_neg hik]
      by_cases hi0 : i = 0
      · rw [if_pos hi0, if_pos hi0]
      · rw [if_neg hi0, if_neg hi0]
        by_cases hik2 : i < k
        · rw [if_pos hik2, if_pos (show i < k + 1 by omega)]
        · rw [if_neg hik2, if_neg (show ¬i < k + 1 by omega), if_neg hik]

/-- Executing the `Call 0` of the `k`-th recursive call (for `k = 1022`
at the most) installs the next frame: the machine reaches depth `k + 1`. -/
theorem recursionStep2 (k : Nat) (h1 : 1 ≤ k) (h2 : k ≤ 1022) :
    vmStep [recursionFn] (recursionMidState k) (.Call 0) =
      .ok (recursionState (k + 1)) := by
  simp only [vmStep]
  rw [if_neg (show ¬(recursionMidState k).sp < 0 + 1 from by
    show ¬k + 1 < 0 + 1
    omega)]
  have hstk : (recursionMidState k).stack ((recursionMidState k).sp - 0 - 1) =
      Object.compiledFunction recursionBody 0 0 := by
    show (if k + 1 - 0 - 1 < k + 1 then recursionFn else Object.null) = _
    rw [if_pos (by omega)]
    rfl
  rw [hstk]
  dsimp only
  rw [if_neg (show ¬(0:Nat) ≠ 0 from by simp)]
  dsimp only [Frame.new]
  unfold VirtualMachine.pushFrame
  rw [if_pos (show (recursionMidState k).frameIndex < (recursionMidState k).framesLen from by
    show k + 1 < FRAME_STACK_SIZE
    unfold FRAME_STACK_SIZE
    omega)]
  refine congrArg Except.ok (vmExt _ _ (fun _ => rfl) rfl ?_ (fun _ => rfl) rfl ?_ rfl ?_)
  · show k + 1 - 0 + 0 = k + 1
    omega
  · intro i
    show updFn (recursionMidState k).frames (recursionMidState k).frameIndex
        (some { instructions := recursionBody, ip := 0,
                basePointer := (recursionMidState k).sp - 0 }) i =
      (recursionState (k + 1)).frames i
    unfold recursionMidState recursionState updFn
    dsimp only
    by_cases hik : i = k + 1
    · rw [if_pos hik, if_neg (show ¬i = 0 by omega),
        if_neg (show ¬i < k + 1 by omega), if_pos hik, Nat.sub_zero]
    · rw [if_neg hik]
      by_cases hi0 : i = 0
      · rw [if_pos hi0, if_pos hi0]
      · rw [if_neg hi0, if_neg hi0]
        by_cases hik2 : i < k + 1
        · rw [if_pos hik2, if_pos hik2]
        · rw [if_neg hik2, if_neg hik2, if_neg hik]
  · show k + 1 + 1 = k + 1 + 1
    rfl

/-- At depth 1023 the frame stack holds `FRAME_STACK_SIZE = 1024` frames
(the main frame plus 1023 recursive ones), so the `Call 0` of the 1023rd
call writes `frames[1024]` out of bounds: `push_frame` panics. -/
theorem recursionStep2_crash :
    vmStep [recursionFn] (recursionMidState 1023) (.Call 0) = .error .crash := by
  simp only [vmStep]
  rw [if_neg (show ¬(recursionMidState 1023).sp < 0 + 1 from by
    show ¬1023 + 1 < 0 + 1
    omega)]
  have hstk : (recursionMidState 1023).stack ((recursionMidState 1023).sp - 0 - 1) =
      Object.compiledFunction recursionBody 0 0 := by
    show (if 1023 + 1 - 0 - 1 < 1023 + 1 then recursionFn else Object.null) = _
    rw [if_pos (by omega)]
    rfl
  rw [hstk]
  dsimp only
  rw [if_neg (show ¬(0:Nat) ≠ 0 from by simp)]
  dsimp only [Frame.new]
  unfold VirtualMachine.pushFrame
  rw [if_neg (show ¬(recursionMidState 1023).frameIndex < (recursionMidState 1023).framesLen from by
    show ¬1023 + 1 < FRAME_STACK_SIZE
    unfold FRAME_STACK_SIZE
    omega)]

/-- From depth `1023 - m` the loop crashes within `2m + 2` steps: each
round of the recursive body is a `GetGlobal 0` and a `Call 0`, and the
round at depth 1023 panics in `push_frame`. -/
theorem recursionLoop_crash : ∀ m : Nat, m ≤ 1022 →
    vmLoop (2 * m + 2) [recursionFn] (recursionState (1023 - m)) = .crash := by
  intro m
  induction m with
  | zero =>
    intro _
    rw [show 2 * 0 + 2 = 1 + 1 from rfl]
    rw [vmLoop_unfold_step 1 [recursionFn] _ (recursionMidState 1023)
      ⟨recursionBody, 0, 1023⟩
      (recursionState_currentFrame 1023 (by omega) (by omega))
      (by show (0:Nat) < recursionBody.length; decide)
      (recursionStep1 1023 (by omega) (by omega))]
    rw [show (1:Nat) = 0 + 1 from rfl]
    rw [vmLoop_crash_step 0 [recursionFn] _ ⟨recursionBody, 1, 1023⟩
      (recursionMid_currentFrame 1023 (by omega) (by omega))
      (by show (1:Nat) < recursionBody.length; decide)
      recursionStep2_crash]
  | succ m ih =>
    intro hm
    have h1 : (1:Nat) ≤ 1023 - (m + 1) := by omega
    have h2 : 1023 - (m + 1) ≤ 1022 := by omega
    rw [show 2 * (m + 1) + 2 = (2 * m + 3) + 1 from by ring]
    rw [vmLoop_unfold_step (2 * m + 3) [recursionFn] _
      (recursionMidState (1023 - (m + 1))) ⟨recursionBody, 0, 1023 - (m + 1)⟩
      (recursionState_currentFrame (1023 - (m + 1)) h1 (by omega))
      (by show (0:Nat) < recursionBody.length; decide)
      (recursionStep1 (1023 - (m + 1)) h1 (by omega))]
    rw [show 2 * m + 3 = (2 * m + 2) + 1 from rfl]
    rw [vmLoop_unfold_step (2 * m + 2) [recursionFn] _
      (recursionState (1023 - (m + 1) + 1)) ⟨recursionBody, 1, 1023 - (m + 1)⟩
      (recursionMid_currentFrame (1023 - (m + 1)) h1 (by omega))
      (by show (1:Nat) < recursionBody.length; decide)
      (recursionStep2 (1023 - (m + 1)) h1 h2)]
    rw [show 1023 - (m + 1) + 1 = 1023 - m from by omega]
    exact ih (by omega)

/-- The four prologue steps of the frame-overflow program. -/
theorem prologue_stepA :
    vmStep [recursionFn] (VirtualMachine.create.runInit recursionBytecode)
      (.Constant 0) = .ok prologueA := rfl

theorem prologue_stepB :
    vmStep [recursionFn] prologueA (.SetGlobal 0) = .ok prologueB := rfl

theorem prologue_stepC :
    vmStep [recursionFn] prologueB (.GetGlobal 0) = .ok prologueC := rfl

theorem prologue_stepD :
    vmStep [recursionFn] prologueC (.Call 0) = .ok prologueD := rfl

/-- The prologue lands exactly in the depth-1 recursive state. -/
theorem prologueD_eq : prologueD = recursionState 1 := by
  refine vmExt _ _ ?_ rfl rfl (fun _ => rfl) rfl ?_ rfl rfl
  · intro i
    show updFn (updFn (fun _ => Object.null) 0 recursionFn) 0 recursionFn i =
      (if i < 1 then recursionFn else Object.null)
    unfold updFn
    by_cases h : i = 0
    · rw [if_pos h, if_pos (show i < 1 by omega)]
    · rw [if_neg h, if_neg h, if_neg (show ¬i < 1 by omega)]
  · intro i
    show updFn (updFn (updFn (updFn (updFn (fun _ => none) 0
        (some ⟨recursionMain, 0, 0⟩)) 0 (some ⟨recursionMain, 1, 0⟩)) 0
        (some ⟨recursionMain, 2, 0⟩)) 0 (some ⟨recursionMain, 3, 0⟩)) 1
        (some ⟨recursionBody, 0, 1⟩) i = (recursionState 1).frames i
    unfold recursionState updFn
    dsimp only
    by_cases h1 : i = 1
    · rw [if_pos h1, if_neg (show ¬i = 0 by omega), if_neg (show ¬i < 1 by omega),
        if_pos h1]
    · rw [if_neg h1]
      by_cases h0 : i = 0
      · rw [if_pos h0, if_pos h0]
      · rw [if_neg h0, if_neg h0, if_neg h0, if_neg h0, if_neg h0,
          if_neg (show ¬i < 1 by omega), if_neg h1]

/-- Running the frame-overflow bytecode on a fresh machine panics the
host: 4 prologue steps, then 1022 full rounds and the final crashing
round, 2050 steps in all (so fuel 2050 is not what stops it). -/
theorem recursion_run_crash :
    VirtualMachine.create.run 2050 recursionBytecode = .crash := by
  show vmLoop 2050 [recursionFn] (VirtualMachine.create.runInit recursionBytecode) =
    VmOutcome.crash
  rw [show (2050:Nat) = 2049 + 1 from rfl]
  rw [vmLoop_unfold_step 2049 [recursionFn]
    (VirtualMachine.create.runInit recursionBytecode) prologueA
    ⟨recursionMain, 0, 0⟩ rfl
    (by show (0:Nat) < recursionMain.length; decide) prologue_stepA]
  rw [show (2049:Nat) = 2048 + 1 from rfl]
  rw [vmLoop_unfold_step 2048 [recursionFn] prologueA prologueB
    ⟨recursionMain, 1, 0⟩ rfl
    (by show (1:Nat) < recursionMain.length; decide) prologue_stepB]
  rw [show (2048:Nat) = 2047 + 1 from rfl]
  rw [vmLoop_unfold_step 2047 [recursionFn] prologueB prologueC
    ⟨recursionMain, 2, 0⟩ rfl
    (by show (2:Nat) < recursionMain.length; decide) prologue_stepC]
  rw [show (2047:Nat) = 2046 + 1 from rfl]
  rw [vmLoop_unfold_step 2046 [recursionFn] prologueC prologueD
    ⟨recursionMain, 3, 0⟩ rfl
    (by show (3:Nat) < recursionMain.length; decide) prologue_stepD]
  rw [prologueD_eq]
  rw [show (2046:Nat) = 2 * 1022 + 2 from rfl]
  have hcrash := recursionLoop_crash 1022 (by omega)
  rw [show (1023 - 1022 : Nat) = 1 from rfl] at hcrash
  exact hcrash

/-- C5 counterexample: stack overflow is *not* uniformly an error value.
The unboundedly recursive program compiled to `recursionBytecode`
(`let f = fn() { f() }; f();`) overflows the 1024-slot frame stack;
`push_frame` performs no capacity check, so the 1024th nested call indexes
the frame vector out of bounds and the run terminates the host abnormally
(`.crash`) instead of returning the `StackOverflow` error value. -/
theorem c5_frame_overflow_crashes :
    VirtualMachine.create.run 2050 recursionBytecode = .crash ∧
    ∀ e : VmErr, VirtualMachine.create.run 2050 recursionBytecode ≠ .err e := by
  refine ⟨recursion_run_crash, fun e h => ?_⟩
  rw [recursion_run_crash] at h
  cases h

/-- C5 (amended): overflow of the 2048-slot *value* stack is surfaced as
the `StackOverflow` error — `push` checks capacity before writing — while
overflow of the 1024-slot *frame* stack is a host panic: `push_frame` has
no check, and the unboundedly recursive program crashes the run instead of
returning `StackOverflow`. -/
theorem c5_stack_overflow_behavior :
    (∀ (vm : VirtualMachine) (obj : Object), vm.stackLen ≤ vm.sp →
      vm.push obj = .error (.err .StackOverflow)) ∧
    VirtualMachine.create.run 2050 recursionBytecode = .crash := by
  refine ⟨fun vm obj h => ?_, recursion_run_crash⟩
  unfold VirtualMachine.push
  rw [if_pos h]

/-- C5 witness: the `push` half of the theorem at a machine whose value
stack is full. -/
theorem c5_stack_overflow_behavior_witness :
    fullStackVm.stackLen ≤ fullStackVm.sp ∧
    fullStackVm.push (.integer 1) = .error (.err .StackOverflow) :=
  ⟨by decide, c5_stack_overflow_behavior.1 fullStackVm (.integer 1) (by decide)⟩


/-- C8: return-value stack discipline.  (i) Executing `ReturnValue` pops
the return value and the current frame, sets `sp` to the popped frame's
`base_pointer − 1` and pushes the return value back, so the new `sp` is
exactly `base_pointer` and the slot below it holds the returned value;
the frame index drops by one.  (ii) Executing `Call n` on a compiled
function at `stack[sp − n − 1]` (with matching arity) installs a frame
whose `base_pointer` is `sp − n`.  (iii) Consequently, a `ReturnValue`
executed in a state whose current frame was installed by a `Call n` at
stack pointer `S` leaves `sp = S − n`: the arguments and the callee are
gone and only the return value remains. -/
theorem c8_return_value_stack_discipline :
    (∀ (c : List Object) (vm : VirtualMachine) (fr : Frame),
      vm.currentFrame = .ok fr →
      vm.sp ≠ 0 →
      1 ≤ fr.basePointer →
      fr.basePointer - 1 < vm.stackLen →
      2 ≤ vm.frameIndex →
      (vm.frames (vm.frameIndex - 2)).isSome = true →
      ∃ vm2, vmStep c vm .ReturnValue = .ok vm2 ∧
        vm2.sp = fr.basePointer ∧
        vm2.stack (fr.basePointer - 1) = vm.stack (vm.sp - 1) ∧
        vm2.frameIndex = vm.frameIndex - 1) ∧
    (∀ (c : List Object) (vm : VirtualMachine) (n : Nat)
        (insts : List Instruction) (locs : Nat),
      n + 1 ≤ vm.sp →
      vm.stack (vm.sp - n - 1) = .compiledFunction insts locs n →
      vm.frameIndex < vm.framesLen →
      ∃ vm2, vmStep c vm (.Call n) = .ok vm2 ∧
        vm2.currentFrame = .ok ⟨insts, 0, vm.sp - n⟩ ∧
        vm2.sp = (vm.sp - n) + locs ∧
        vm2.frameIndex = vm.frameIndex + 1) ∧
    (∀ (c : List Object) (vmr : VirtualMachine) (fr : Frame) (S n : Nat),
      vmr.currentFrame = .ok fr →
      fr.basePointer = S - n →
      vmr.sp ≠ 0 →
      1 ≤ fr.basePointer →
      fr.basePointer - 1 < vmr.stackLen →
      2 ≤ vmr.frameIndex →
      (vmr.frames (vmr.frameIndex - 2)).isSome = true →
      ∃ vm2, vmStep c vmr .ReturnValue = .ok vm2 ∧ vm2.sp = S - n) := by
  have part1 : ∀ (c : List Object) (vm : VirtualMachine) (fr : Frame),
      vm.currentFrame = .ok fr →
      vm.sp ≠ 0 →
      1 ≤ fr.basePointer →
      fr.basePointer - 1 < vm.stackLen →
      2 ≤ vm.frameIndex →
      (vm.frames (vm.frameIndex - 2)).isSome = true →
      ∃ vm2, vmStep c vm .ReturnValue = .ok vm2 ∧
        vm2.sp = fr.basePointer ∧
        vm2.stack (fr.basePointer - 1) = vm.stack (vm.sp - 1) ∧
        vm2.frameIndex = vm.frameIndex - 1 := by
    intro c vm fr hcf hsp hbp1 hbp2 hfi hparent
    obtain ⟨hf0, hf1, hf2⟩ := currentFrame_ok_elim vm fr hcf
    -- the parent frame
    obtain ⟨pfr, hpfr⟩ : ∃ pfr, vm.frames (vm.frameIndex - 2) = some pfr := by
      cases hp : vm.frames (vm.frameIndex - 2) with
      | none => rw [hp] at hparent; cases hparent
      | some f => exact ⟨f, rfl⟩
    simp only [vmStep]
    rw [pop_ok vm hsp]
    dsimp only
    rw [popFrame_ok { vm with sp := vm.sp - 1 } fr hf0 hf1 hf2]
    dsimp only
    rw [if_neg (by omega : ¬fr.basePointer = 0)]
    rw [push_ok
      { vm with
        sp := fr.basePointer - 1
        frames := updFn vm.frames (vm.frameIndex - 1) none
        frameIndex := vm.frameIndex - 1 }
      (vm.stack (vm.sp - 1)) hbp2]
    dsimp only
    rw [bumpIp_ok
      { vm with
        stack := updFn vm.stack (fr.basePointer - 1) (vm.stack (vm.sp - 1))
        sp := fr.basePointer - 1 + 1
        frames := updFn vm.frames (vm.frameIndex - 1) none
        frameIndex := vm.frameIndex - 1 }
      pfr ?hcf2]
    case hcf2 =>
      apply currentFrame_ok_intro
      · dsimp only
        omega
      · dsimp only
        omega
      · dsimp only
        unfold updFn
        rw [if_neg (by omega : ¬vm.frameIndex - 1 - 1 = vm.frameIndex - 1),
          show vm.frameIndex - 1 - 1 = vm.frameIndex - 2 by omega, hpfr]
    refine ⟨_, rfl, ?_, ?_, ?_⟩
    · dsimp only
      omega
    · dsimp only
      unfold updFn
      rw [if_pos rfl]
    · dsimp only
  have part2 : ∀ (c : List Object) (vm : VirtualMachine) (n : Nat)
      (insts : List Instruction) (locs : Nat),
      n + 1 ≤ vm.sp →
      vm.stack (vm.sp - n - 1) = .compiledFunction insts locs n →
      vm.frameIndex < vm.framesLen →
      ∃ vm2, vmStep c vm (.Call n) = .ok vm2 ∧
        vm2.currentFrame = .ok ⟨insts, 0, vm.sp - n⟩ ∧
        vm2.sp = (vm.sp - n) + locs ∧
        vm2.frameIndex = vm.frameIndex + 1 := by
    intro c vm n insts locs hsp hstk hroom
    simp only [vmStep]
    rw [if_neg (by omega : ¬vm.sp < n + 1), hstk]
    dsimp only
    rw [if_neg (by simp : ¬n ≠ n)]
    dsimp only [Frame.new]
    unfold VirtualMachine.pushFrame
    rw [if_pos (by exact hroom)]
    refine ⟨_, rfl, ?_, rfl, rfl⟩
    apply currentFrame_ok_intro
    · simp
    · dsimp only
      omega
    · dsimp only
      show updFn _ vm.frameIndex _ (vm.frameIndex + 1 - 1) = _
      unfold updFn
      rw [if_pos (by omega)]
  refine ⟨part1, part2, ?_⟩
  intro c vmr fr S n hcf hbp hsp hbp1 hbp2 hfi hparent
  obtain ⟨vm2, hstep, hsp2, _, _⟩ := part1 c vmr fr hcf hsp hbp1 hbp2 hfi hparent
  exact ⟨vm2, hstep, by rw [hsp2, hbp]⟩

/-- C8 witness: the theorem applied at the two concrete machines above.
The returning machine's frame was installed by a zero-argument call at
stack pointer 1 (base pointer `1 = 1 − 0`), the body pushed one return
value, and the return indeed restores `sp` to the base pointer `1` with
the return value in slot 0. -/
theorem c8_return_value_stack_discipline_witness :
    (∃ vm2, vmStep [] returnValueDemoVm .ReturnValue = .ok vm2 ∧
      vm2.sp = 1 ∧
      vm2.stack 0 = returnValueDemoVm.stack 1 ∧
      vm2.frameIndex = 1) ∧
    (∃ vm2, vmStep [] callDemoVm (.Call 0) = .ok vm2 ∧
      vm2.currentFrame = .ok ⟨[.ReturnValue], 0, 1⟩ ∧
      vm2.sp = 1 ∧
      vm2.frameIndex = 2) :=
  ⟨c8_return_value_stack_discipline.1 [] returnValueDemoVm ⟨[.ReturnValue], 0, 1⟩
      rfl (by decide) (by decide) (by decide) (by decide) rfl,
   c8_return_value_stack_discipline.2.1 [] callDemoVm 0 [.ReturnValue] 0
      (by decide) rfl (by decide)⟩

end Monkey
